import Mathlib

/-!
Verification of the forensic matching core of the expense-flow application:
the Travel Linkage Engine (ingestion seeding, hotel-flight verification,
outbound-return bridging) and the Reconciliation Engine (advisory-pass
validation, heuristic fallback matching, missing-item classification and
compliance scoring), together with the shared currency and identity
matching primitives.

Dates are modelled at day granularity: the application parses `YYYY-MM-DD`
calendar strings and compares millisecond timestamps divided by 86 400 000,
which for date-only strings is exactly the (integer) epoch-day difference.
Decimal amounts are modelled by rational numbers; JavaScript decimal
literals such as `0.05` are the exact rationals they denote.
-/

namespace ExpenseFlow

/-- `hasPre n h` holds when the character list `n` is a prefix of `h`
(the building block of JavaScript's `String.includes`). -/
def hasPre : List Char → List Char → Bool
  | [], _ => true
  | _ :: _, [] => false
  | c :: cs, d :: ds => c == d && hasPre cs ds

/-- `hasSubList n h` holds when `n` occurs contiguously inside `h`;
this is JavaScript's `h.includes(n)` on the underlying characters. -/
def hasSubList : List Char → List Char → Bool
  | n, [] => n.isEmpty
  | n, c :: cs => hasPre n (c :: cs) || hasSubList n cs

/-- `strHas hay needle` models JavaScript `hay.includes(needle)`. -/
def strHas (hay needle : String) : Bool :=
  hasSubList needle.toList hay.toList

/-- `toLowerCase`, computed characterwise (ASCII-faithful for the
strings the engines compare). -/
def lowerStr (s : String) : String :=
  ⟨s.toList.map Char.toLower⟩

/-- `toUpperCase`, computed characterwise. -/
def upperStr (s : String) : String :=
  ⟨s.toList.map Char.toUpper⟩

def isWsChar (c : Char) : Bool :=
  c == ' ' || c == '\t' || c == '\n' || c == '\r'

/-- JavaScript `trim`: strip leading and trailing whitespace. -/
def trimStr (s : String) : String :=
  ⟨((s.toList.dropWhile isWsChar).reverse.dropWhile isWsChar).reverse⟩

/-- Truthiness of an optional string field in JavaScript: `undefined`
and the empty string are falsy. -/
def optTruthy : Option String → Bool
  | none => false
  | some s => s ≠ ""

/-- JavaScript `a || b` for an optional string `a` with default `b`. -/
def jsStrOr (o : Option String) (d : String) : String :=
  match o with
  | some s => if s == "" then d else s
  | none => d

/-! ## Travel Linkage Engine: data model -/

/-- A travel record (flight or accommodation).  `start_date`, `end_date`
and `return_date` are epoch-day numbers of the stored `YYYY-MM-DD`
strings; an absent or empty optional field is `none`. -/
structure TravelLog where
  id : String
  travel_type : String
  destination_city : String
  destination_country : String
  start_date : Int
  end_date : Option Int
  return_date : Option Int
  days_spent : Int
  status : String
  hotel_verification_status : String
  linked_hotel_id : Option String
  linked_flight_id : Option String
  outbound_flight_id : Option String
  return_flight_id : Option String
  reference_number : Option String
  document_id : Option String
deriving Repr, DecidableEq

/-- `isHomeLocation`: the destination string
`"{country} {city}"`, lowercased, matches the home-jurisdiction pattern
`/uae|emirates|dubai|united arab emirates/`. -/
def isHomeLocation (l : TravelLog) : Bool :=
  let dest := lowerStr (l.destination_country ++ " " ++ l.destination_city)
  strHas dest "uae" || strHas dest "emirates" || strHas dest "dubai" ||
    strHas dest "united arab emirates"

/-- `calculateDuration`: inclusive day count between `start` and `end`
(`end` defaults to `start`); `Math.ceil(|diff|/day) + 1` is exact at day
granularity. -/
def calculateDuration (start : Int) (endD : Option Int) : Int :=
  |endD.getD start - start| + 1

/-- The record written at ingestion: `days_spent`, `status` and
`hotel_verification_status` are (re)computed, all other fields kept. -/
def seedLog (l : TravelLog) : TravelLog :=
  let isAccommodation := l.travel_type == "accommodation"
  let isHome := isHomeLocation l
  let documentDuration := calculateDuration l.start_date l.end_date
  let isRoundTrip := !isAccommodation && !isHome && l.return_date.isSome
  { l with
      days_spent := if isHome || isRoundTrip || isAccommodation then documentDuration else 1
      status := if isHome || isRoundTrip || isAccommodation then "Complete"
                else "Open - Awaiting return"
      hotel_verification_status :=
        if !isAccommodation && !isHome then "missing" else "not_required" }

/-- The ingestion duplicate test against one existing record: equal
(case-insensitive, nonempty) reference numbers, or equal start date plus
equal lowercased destination city plus equal travel type. -/
def isDuplicateOf (l e : TravelLog) : Bool :=
  (match l.reference_number, e.reference_number with
   | some a, some b => a ≠ "" && b ≠ "" && upperStr a == upperStr b
   | _, _ => false) ||
  (l.start_date == e.start_date &&
   lowerStr l.destination_city == lowerStr e.destination_city &&
   l.travel_type == e.travel_type)

/-- Stable insertion into a list sorted by ascending `start_date`. -/
def insertLog (x : TravelLog) : List TravelLog → List TravelLog
  | [] => [x]
  | y :: ys => if x.start_date ≤ y.start_date then x :: y :: ys else y :: insertLog x ys

/-- Stable sort by ascending start date, as the engine's
`sort((a, b) => a.start_date - b.start_date)`. -/
def sortLogs : List TravelLog → List TravelLog
  | [] => []
  | x :: xs => insertLog x (sortLogs xs)

/-- Ingestion: sort the incoming batch by start date, drop records that
duplicate an existing one, and seed the accepted records.  (Duplicates are
checked against the pre-fetched existing set only, as in the source.) -/
def ingest (existing : List TravelLog) (news : List TravelLog) : List TravelLog :=
  (sortLogs news).foldl
    (fun acc l => if existing.any (fun e => isDuplicateOf l e) then acc else acc ++ [seedLog l])
    []

/-! ## Travel Linkage Engine: hotel-flight verification -/

/-- The hotel candidate test for a flight: lowercased city containment in
either direction, hotel start date within `[flight-1, flight+2]` days, and
the hotel unlinked or already linked to this exact flight. -/
def hotelCand (flight hotel : TravelLog) : Bool :=
  let flightCity := lowerStr flight.destination_city
  let hotelCity := lowerStr hotel.destination_city
  let cityMatch := strHas flightCity hotelCity || strHas hotelCity flightCity
  let diffDays := hotel.start_date - flight.start_date
  let dateMatch := decide (-1 ≤ diffDays) && decide (diffDays ≤ 2)
  cityMatch && dateMatch &&
    (match hotel.linked_flight_id with
     | none => true
     | some s => s == "" || s == flight.id)

/-- The city-and-date part of the hotel candidate test. -/
def cityDateOk (flight hotel : TravelLog) : Bool :=
  (strHas (lowerStr flight.destination_city) (lowerStr hotel.destination_city) ||
    strHas (lowerStr hotel.destination_city) (lowerStr flight.destination_city)) &&
  (decide (-1 ≤ hotel.start_date - flight.start_date) &&
    decide (hotel.start_date - flight.start_date ≤ 2))

/-- The link part of the hotel candidate test: unlinked (or falsy-linked)
or linked to this exact flight. -/
def linkOkB (flight hotel : TravelLog) : Bool :=
  match hotel.linked_flight_id with
  | none => true
  | some s => s == "" || s == flight.id

/-- Point update of the persisted store at a record id. -/
def updById (store : List TravelLog) (i : String) (f : TravelLog → TravelLog) :
    List TravelLog :=
  store.map (fun l => if l.id == i then f l else l)

/-- The fields merged onto the flight record when a hotel match is found. -/
def flightWrite (h : TravelLog) (l : TravelLog) : TravelLog :=
  { l with
      hotel_verification_status := "verified"
      linked_hotel_id := some (jsStrOr h.document_id h.id) }

/-- The fields merged onto the matched hotel record. -/
def hotelWrite (flightId : String) (l : TravelLog) : TravelLog :=
  { l with
      status := "Complete"
      linked_flight_id := some flightId
      hotel_verification_status := "verified" }

/-- One hotel-verification pass.  The iteration runs over the snapshot
taken at the start of the pass (`flights`, `hotels`); the candidate test
reads the stale snapshot records while writes go to the persisted store,
exactly as the source mutates Firestore but not the in-memory arrays. -/
def verifyPass (logs : List TravelLog) : List TravelLog :=
  let flights := logs.filter (fun l => l.travel_type == "flight")
  let hotels := logs.filter (fun l => l.travel_type == "accommodation")
  flights.foldl
    (fun store flight =>
      if flight.hotel_verification_status == "verified" || isHomeLocation flight then store
      else
        match hotels.find? (fun hotel => hotelCand flight hotel) with
        | some h => updById (updById store flight.id (flightWrite h)) h.id (hotelWrite flight.id)
        | none => store)
    logs

/-! ## Travel Linkage Engine: outbound-return bridging -/

/-- Eligibility of an open outbound for a given arrival: start date on or
before the arrival's, and not yet bridged (`!o.return_flight_id`). -/
def eligibleOutbound (a o : TravelLog) : Bool :=
  decide (o.start_date ≤ a.start_date) && !optTruthy o.return_flight_id

/-- Scan a list of record ids, reading the current record for each id
from the working set, and return the first record satisfying `p`. -/
def findFirst (store : List TravelLog) (p : TravelLog → Bool) :
    List String → Option TravelLog
  | [] => none
  | i :: rest =>
    match store.find? (fun l => l.id == i) with
    | some o => if p o then some o else findFirst store p rest
    | none => findFirst store p rest

/-- The fields merged onto a bridged outbound: Complete status, the
arrival's date as `return_date`, the arrival's id as `return_flight_id`,
and the recomputed inclusive `days_spent`. -/
def bridgeOutUpd (a : TravelLog) (days : Int) (l : TravelLog) : TravelLog :=
  { l with
      status := "Complete"
      return_date := some a.start_date
      return_flight_id := some a.id
      days_spent := days }

/-- The field merged onto a bridged arrival. -/
def bridgeArrUpd (o : TravelLog) (l : TravelLog) : TravelLog :=
  { l with outbound_flight_id := some o.id }

/-- Process one home-bound arrival: skip it when already bridged, else
select the first eligible outbound scanning the open-outbound ids in
reverse order, and update both records in the working set. -/
def bridgeOne (openIds : List String) (store : List TravelLog) (aId : String) :
    List TravelLog :=
  match store.find? (fun l => l.id == aId) with
  | none => store
  | some a =>
    if optTruthy a.outbound_flight_id then store
    else
      match findFirst store (fun o => eligibleOutbound a o) openIds.reverse with
      | none => store
      | some o =>
        let days := max 1 ((a.start_date - o.start_date) + 1)
        store.map (fun l =>
          let l1 := if l.id == o.id then bridgeOutUpd a days l else l
          if l1.id == aId then bridgeArrUpd o l1 else l1)

/-- The full bridging pass: home-bound arrivals and open outbounds are
computed from the initial working set and sorted by ascending start date;
arrivals are processed in order, each one immediately updating the
working set. -/
def bridgePass (logs : List TravelLog) : List TravelLog :=
  let arrivals :=
    sortLogs (logs.filter (fun l => l.travel_type == "flight" && isHomeLocation l))
  let openIds :=
    (sortLogs (logs.filter
      (fun l => l.status == "Open - Awaiting return" && !isHomeLocation l))).map (·.id)
  (arrivals.map (·.id)).foldl (fun store aId => bridgeOne openIds store aId) logs

/-! ## Currency Normalizer -/

/-- `convertToINR`: identity on the base currency; otherwise divide by the
rate (the fetched table maps `1 INR = rates[code]` units); a missing or
zero (falsy) rate degrades to a 1:1 conversion. -/
def convertToINR (amount : ℚ) (fromCurrency : String) (rates : List (String × ℚ)) : ℚ :=
  let currency := upperStr fromCurrency
  if currency == "INR" then amount
  else
    match rates.lookup currency with
    | none => amount
    | some rate => if rate == 0 then amount else amount / rate

/-! ## Reconciliation Engine: data model -/

/-- The calendar date of an expense, as the engine consumes it:
`y` and `m` are the first two dash-separated segments of the stored
`YYYY-MM-DD` string (used for period scoping) and `t` is its epoch-day
number (used for day-difference windows). -/
structure EDate where
  y : Nat
  m : Nat
  t : Int
deriving Repr, DecidableEq

/-- An expense record, restricted to the fields the Reconciliation Engine
reads.  `bank` is the optional bank-account identifier. -/
structure Expense where
  id : String
  merchant : String
  amount : ℚ
  currency : String
  date : EDate
  category : String
  source : String
  bank : Option String
deriving Repr, DecidableEq

/-- A proposal from the advisory (AI-assisted) matcher, as consumed by the
validation pass; all fields are untrusted strings. -/
structure Proposal where
  bankId : String
  receiptId : String
  emailId : String
  proofLabel : String
  summary : String
deriving Repr, DecidableEq

/-- A validated matched pair in the reconciliation output. -/
structure MatchedPair where
  bank : Expense
  receipt : Expense
  label : String
  summary : String
deriving Repr, DecidableEq

/-- The period selector: a month name (or `"All Months"`) and a year. -/
structure Period where
  month : String
  year : Nat
deriving Repr, DecidableEq

/-- The reconciliation output consumed by the report. -/
structure ReconOut where
  matched : List MatchedPair
  mandatoryMissing : List Expense
  standardMissing : List Expense
  optionalMissing : List Expense
  score : Int
deriving Repr, DecidableEq

/-- Anchor role: the source, lowercased and trimmed, is a statement type. -/
def isAnchor (e : Expense) : Bool :=
  let src := trimStr (lowerStr e.source)
  src == "bank_statement" || src == "credit_card_statement"

def monthsList : List String :=
  ["January", "February", "March", "April", "May", "June", "July", "August",
   "September", "October", "November", "December"]

/-- `monthsList[mIdx]` for the 1-based month segment `m`; out-of-range
indices give `none` (JavaScript `undefined`, which matches no month name). -/
def monthNameOf (m : Nat) : Option String :=
  if m == 0 then none else monthsList.get? (m - 1)

/-- The segment-based period test: the year segment equals the selected
year, and the month is unrestricted (`"All Months"`) or names the
selected month. -/
def isTargetPeriod (period : Period) (d : EDate) : Bool :=
  d.y == period.year &&
    (period.month == "All Months" || monthNameOf d.m == some period.month)

/-- The account filter applied to anchors and matched banks. -/
def bankScope (auditBank : String) (e : Expense) : Bool :=
  auditBank == "All Accounts" || e.bank == some auditBank

/-- The period- and account-scoped anchor pool of a run. -/
def scopedAnchors (expenses : List Expense) (period : Period) (auditBank : String) :
    List Expense :=
  expenses.filter (fun e =>
    isAnchor e && isTargetPeriod period e.date && bankScope auditBank e)

/-- Id lookup mirroring the `Map` built over all expenses with truthy ids
(later insertions overwrite earlier ones). -/
def mapGet (expenses : List Expense) (k : String) : Option Expense :=
  if k == "" then none else expenses.reverse.find? (fun e => e.id == k)

/-! ## Identity Matcher primitives -/

/-- Telecom synonym group: `e&` or `etisalat` occurs in the (lowercased)
merchant string. -/
def isTele (m : List Char) : Bool :=
  hasSubList "e&".toList m || hasSubList "etisalat".toList m

/-- Transit-authority synonym group. -/
def isRTA (m : List Char) : Bool :=
  hasSubList "rta".toList m || hasSubList "road & transport".toList m ||
    hasSubList "dubai metro".toList m || hasSubList "hala taxi".toList m

/-- Merchant fuzzy equality: same synonym group, or 4-character lowercase
prefix containment in either direction. -/
def mercMatch (bankMerchant receiptMerchant : String) : Bool :=
  let bMerc := (lowerStr bankMerchant).toList
  let rMerc := (lowerStr receiptMerchant).toList
  (isTele bMerc && isTele rMerc) || (isRTA bMerc && isRTA rMerc) ||
    hasSubList (bMerc.take 4) rMerc || hasSubList (rMerc.take 4) bMerc

/-- Currency-aware amount parity, first argument on the bank side:
identical currencies compare absolutely against `0.10`; differing
currencies convert both to the base currency and compare against 5% of the
bank-side converted amount. -/
def amountParity (bankE recE : Expense) (rates : List (String × ℚ)) : Bool :=
  let bINR := convertToINR bankE.amount bankE.currency rates
  let rINR := convertToINR recE.amount recE.currency rates
  if bankE.currency == recE.currency then
    decide (|bankE.amount - recE.amount| < (1 : ℚ)/10)
  else
    decide (|bINR - rINR| < bINR * ((1 : ℚ)/20))

/-- The lodging test widening the date window: either record's category
mentions `lodging` or `hotel`. -/
def isHotelPair (bankE recE : Expense) : Bool :=
  strHas (lowerStr bankE.category) "lodging" || strHas (lowerStr bankE.category) "hotel" ||
    strHas (lowerStr recE.category) "lodging" || strHas (lowerStr recE.category) "hotel"

/-- Absolute day difference between two expense dates. -/
def diffDays (a b : Expense) : Int :=
  |a.date.t - b.date.t|

/-! ## Reconciliation Engine: advisory-pass validation -/

/-- The bank-side lookup of a proposal (`m.bankId ? expenseMap.get(...) : null`). -/
def proposalBank (expenses : List Expense) (m : Proposal) : Option Expense :=
  if m.bankId ≠ "" then mapGet expenses m.bankId else none

/-- The receipt-side lookup of a proposal
(`(m.receiptId || m.emailId) ? expenseMap.get(String(m.receiptId || m.emailId || '')) : null`). -/
def proposalReceipt (expenses : List Expense) (m : Proposal) : Option Expense :=
  if m.receiptId ≠ "" || m.emailId ≠ "" then
    mapGet expenses (if m.receiptId ≠ "" then m.receiptId else m.emailId)
  else none

/-- Validation of one advisory proposal: resolve both ids against the
expense map, apply the air-gap guard (`!bank || !receipt ||
bank.id === receipt.id || isAnchor(receipt)`), then the deterministic
forensic checks (date window by category, amount parity, merchant). -/
def validateProposal (expenses : List Expense) (rates : List (String × ℚ))
    (m : Proposal) : Option MatchedPair :=
  match proposalBank expenses m, proposalReceipt expenses m with
  | some b, some r =>
    if b.id == r.id || isAnchor r then none
    else
      let maxDays : Int := if isHotelPair b r then 14 else 7
      if diffDays b r > maxDays || !amountParity b r rates || !mercMatch b.merchant r.merchant
      then none
      else some ⟨b, r, m.proofLabel, m.summary⟩
  | _, _ => none

/-- The advisory pass of one run: validate every proposal, then keep only
pairs whose bank member is in the selected period and account scope. -/
def advisoryPairs (expenses : List Expense) (recon : List Proposal)
    (rates : List (String × ℚ)) (period : Period) (auditBank : String) :
    List MatchedPair :=
  (recon.filterMap (fun m => validateProposal expenses rates m)).filter
    (fun p => isTargetPeriod period p.bank.date && bankScope auditBank p.bank)

/-! ## Reconciliation Engine: heuristic fallback pass -/

/-- The fallback candidate test for an unmatched anchor: amount parity,
3-day (14 for lodging) window, merchant fuzzy match, and a non-anchor
source. -/
def fallbackCand (rates : List (String × ℚ)) (bankTx rec : Expense) : Bool :=
  let maxDays : Int := if isHotelPair bankTx rec then 14 else 3
  amountParity bankTx rec rates && decide (diffDays bankTx rec ≤ maxDays) &&
    mercMatch bankTx.merchant rec.merchant && !isAnchor rec

/-- Find the first list element satisfying `p` and remove exactly it
(`find` followed by `indexOf`/`splice` in the source). -/
def findRemove (p : α → Bool) : List α → Option α × List α
  | [] => (none, [])
  | x :: xs =>
    if p x then (some x, xs)
    else
      let r := findRemove p xs
      (r.1, x :: r.2)

/-- State threaded through the fallback loop: accepted pairs so far, the
set of matched bank ids, and the remaining available receipts. -/
structure FallbackState where
  pairs : List MatchedPair
  matchedIds : List String
  available : List Expense
deriving Repr, DecidableEq

/-- One step of the fallback loop for a still-unmatched anchor: accept the
first available receipt passing the candidate test, record the pair and
the anchor id, and remove the receipt from the pool. -/
def fallbackStep (rates : List (String × ℚ)) (st : FallbackState) (bankTx : Expense) :
    FallbackState :=
  match findRemove (fun rec => fallbackCand rates bankTx rec) st.available with
  | (some rec, rest) =>
    ⟨st.pairs ++ [⟨bankTx, rec, "AUTO-VERIFIED (Forensic Match)",
       "Verified via ±3 day clearance window heuristic match."⟩],
     st.matchedIds ++ [bankTx.id], rest⟩
  | (none, _) => st

/-! ## Reconciliation Engine: classification and scoring -/

def mandatoryKeys : List String :=
  ["travel", "hotel", "flight", "airline", "stay", "flydubai", "ibis", "accommodation"]

def optionalKeys : List String :=
  ["bank charges", "transfer", "vat", "tax", "finance", "charge"]

/-- Mandatory classification: merchant or category mentions a travel
keyword. -/
def isMandatoryE (e : Expense) : Bool :=
  mandatoryKeys.any (fun k => strHas (lowerStr e.merchant) k || strHas (lowerStr e.category) k)

/-- Optional classification: merchant or category mentions a low-stakes
keyword, or the base-currency amount is below 225 (≈ 10 AED). -/
def isOptionalE (rates : List (String × ℚ)) (e : Expense) : Bool :=
  optionalKeys.any (fun k => strHas (lowerStr e.merchant) k || strHas (lowerStr e.category) k) ||
    decide (convertToINR e.amount e.currency rates < 225)

/-- JavaScript `Math.round`: half-up rounding. -/
def jsRound (q : ℚ) : Int :=
  ⌊q + 1/2⌋

/-! ## Reconciliation Engine: the full run -/

/-- The matched bank ids recorded after the advisory pass (falsy ids are
not added to the set). -/
def advisoryIds (expenses : List Expense) (recon : List Proposal)
    (rates : List (String × ℚ)) (period : Period) (auditBank : String) : List String :=
  ((advisoryPairs expenses recon rates period auditBank).map
    (fun p => p.bank.id)).filter (fun i => i ≠ "")

/-- The receipt pool available to the fallback pass: non-anchor expenses
not already used as a receipt by an advisory pair. -/
def availableStart (expenses : List Expense) (recon : List Proposal)
    (rates : List (String × ℚ)) (period : Period) (auditBank : String) : List Expense :=
  expenses.filter (fun e => !isAnchor e &&
    !(advisoryPairs expenses recon rates period auditBank).any
      (fun p => p.receipt.id == e.id))

/-- The scoped anchors still unmatched after the advisory pass. -/
def unmatchedAnchors0 (expenses : List Expense) (recon : List Proposal)
    (rates : List (String × ℚ)) (period : Period) (auditBank : String) : List Expense :=
  (scopedAnchors expenses period auditBank).filter
    (fun b => !(advisoryIds expenses recon rates period auditBank).contains b.id)

/-- The fallback loop over the still-unmatched anchors. -/
def fallbackRun (expenses : List Expense) (recon : List Proposal)
    (rates : List (String × ℚ)) (period : Period) (auditBank : String) : FallbackState :=
  (unmatchedAnchors0 expenses recon rates period auditBank).foldl
    (fun st b => fallbackStep rates st b)
    ⟨advisoryPairs expenses recon rates period auditBank,
     advisoryIds expenses recon rates period auditBank,
     availableStart expenses recon rates period auditBank⟩

/-- The scoped anchors unmatched after both passes. -/
def finalUnmatchedAnchors (expenses : List Expense) (recon : List Proposal)
    (rates : List (String × ℚ)) (period : Period) (auditBank : String) : List Expense :=
  (scopedAnchors expenses period auditBank).filter
    (fun b => !(fallbackRun expenses recon rates period auditBank).matchedIds.contains b.id)

/-- One full reconciliation run over the expense pool, a list of advisory
proposals, a rate table, a period and an account filter: advisory
validation, heuristic fallback over the still-unmatched scoped anchors,
classification of the final unmatched anchors, and scoring. -/
def filteredData (expenses : List Expense) (recon : List Proposal)
    (rates : List (String × ℚ)) (period : Period) (auditBank : String) : ReconOut :=
  let st := fallbackRun expenses recon rates period auditBank
  let finalUnmatched := finalUnmatchedAnchors expenses recon rates period auditBank
  let mandatoryMissing := finalUnmatched.filter (fun e => isMandatoryE e)
  let optionalMissing := finalUnmatched.filter (fun e => !isMandatoryE e && isOptionalE rates e)
  let standardMissing := finalUnmatched.filter (fun e => !isMandatoryE e && !isOptionalE rates e)
  let scoreDenominator := st.pairs.length + mandatoryMissing.length + standardMissing.length
  let score := if scoreDenominator > 0 then
      jsRound (((st.pairs.length : ℚ) / (scoreDenominator : ℚ)) * 100)
    else 100
  ⟨st.pairs, mandatoryMissing, standardMissing, optionalMissing, score⟩

/-! ## Advisory reconciliation agent (server side) -/

/-- An item of the audit pool sent to the agent, with the role label the
caller attached.  (The remaining payload fields do not influence the
agent's control flow.) -/
structure AuditItem where
  id : String
  role : String
deriving Repr, DecidableEq

/-- A matched tuple returned by the external model for one batch. -/
structure AgentMatch where
  bankId : String
  receiptId : String
  proofLabel : String
  summary : String
deriving Repr, DecidableEq

/-- The agent's result: matched tuples, unmatched proof ids, unmatched
anchor ids. -/
structure AgentResult where
  matched : List AgentMatch
  unmatchedReceipts : List String
  unmatchedBankTransactions : List String
deriving Repr, DecidableEq

/-- Split a list into chunks of 15 (`BATCH_SIZE`). -/
def chunkList : List AuditItem → List (List AuditItem)
  | [] => []
  | x :: xs => ((x :: xs).take 15) :: chunkList ((x :: xs).drop 15)
termination_by l => l.length
decreasing_by simp; omega

/-- Accumulate one batch's matches, skipping any proposal whose bank id
was already recorded (the cross-batch deduplication guard). -/
def addMatches (acc : List AgentMatch) (ms : List AgentMatch) : List AgentMatch :=
  ms.foldl
    (fun acc m => if acc.any (fun m2 => m2.bankId == m.bankId) then acc else acc ++ [m])
    acc

/-- The batched advisory reconciliation agent.  `oracle i pool` is the
external model's answer for batch `i` over `pool` (`none` models a batch
that still fails after retries; its anchors are recorded as unmatched
rather than aborting the run). -/
def agentRun (oracle : Nat → List AuditItem → Option (List AgentMatch))
    (expenses : List AuditItem) : AgentResult :=
  let anchors := expenses.filter (fun e => e.role == "ANCHOR")
  let proofs := expenses.filter (fun e => e.role == "PROOF")
  if anchors.isEmpty then
    ⟨[], proofs.map (fun p => p.id), []⟩
  else
    let step := fun (st : List AgentMatch × List String) (batch : Nat × List AuditItem) =>
      match oracle batch.1 (batch.2 ++ proofs) with
      | some ms => (addMatches st.1 ms, st.2)
      | none => (st.1, st.2 ++ batch.2.map (fun a => a.id))
    let res := ((chunkList anchors).enum).foldl step ([], [])
    let matchedBankIds := res.1.map (fun m => m.bankId)
    let matchedReceiptIds := res.1.map (fun m => m.receiptId)
    ⟨res.1,
     (proofs.filter (fun p => !matchedReceiptIds.contains p.id)).map (fun p => p.id),
     (anchors.filter (fun a => !matchedBankIds.contains a.id)).map (fun a => a.id) ++ res.2⟩

/-! ## Helper notions used by the verification -/

/-- The symmetric-link invariant of §3: `outbound_flight_id` on an arrival
and `return_flight_id` on its outbound point to each other or are absent. -/
def LinkSym (logs : List TravelLog) : Prop :=
  (∀ a ∈ logs, ∀ i, a.outbound_flight_id = some i →
     ∃ o ∈ logs, o.id = i ∧ o.return_flight_id = some a.id) ∧
  (∀ o ∈ logs, ∀ i, o.return_flight_id = some i →
     ∃ a ∈ logs, a.id = i ∧ a.outbound_flight_id = some o.id)

/-- The current start date of the record with a given id in a working set. -/
def idStart (store : List TravelLog) (i : String) : Option Int :=
  (store.find? (fun l => l.id == i)).map (fun l => l.start_date)

/-- The flight-hotel matches decided by one verification pass.  All
decisions read the snapshot lists, so the pass equals applying the writes
of this list in order (`verifyPass_eq_writes` below). -/
def vMatches (logs : List TravelLog) : List (TravelLog × TravelLog) :=
  let flights := logs.filter (fun l => l.travel_type == "flight")
  let hotels := logs.filter (fun l => l.travel_type == "accommodation")
  flights.filterMap (fun flight =>
    if flight.hotel_verification_status == "verified" || isHomeLocation flight then none
    else (hotels.find? (fun hotel => hotelCand flight hotel)).map (fun h => (flight, h)))

/-- The pointwise effect on one stored record of the two writes issued for
one flight-hotel match. -/
def wStep (m : TravelLog × TravelLog) (x : TravelLog) : TravelLog :=
  let x1 := if x.id == m.1.id then flightWrite m.2 x else x
  if x1.id == m.2.id then hotelWrite m.1.id x1 else x1

/-- The pointwise effect of a whole list of matches. -/
def wAll (ms : List (TravelLog × TravelLog)) (x : TravelLog) : TravelLog :=
  ms.foldl (fun y m => wStep m y) x

/-! ## Concrete inputs used by witnesses and counterexamples -/

/-- A travel-log template. -/
def baseLog : TravelLog :=
  { id := "", travel_type := "flight", destination_city := "", destination_country := "",
    start_date := 0, end_date := none, return_date := none, days_spent := 1,
    status := "", hotel_verification_status := "", linked_hotel_id := none,
    linked_flight_id := none, outbound_flight_id := none, return_flight_id := none,
    reference_number := none, document_id := none }

/-- Scenario-B outbound: flight to Muscat departing 2025-01-05
(epoch day 20093), status Open. -/
def exOutbound : TravelLog :=
  { baseLog with
      id := "f10"
      destination_city := "Muscat"
      destination_country := "Oman"
      start_date := 20093
      status := "Open - Awaiting return"
      hotel_verification_status := "missing" }

/-- Scenario-B home-bound arrival: flight to Dubai on 2025-01-09
(epoch day 20097). -/
def exArrival : TravelLog :=
  { baseLog with
      id := "f11"
      destination_city := "Dubai"
      destination_country := "UAE"
      start_date := 20097
      status := "Complete"
      hotel_verification_status := "not_required" }

/-- Two non-home flights and one hotel, all in the same city with
overlapping dates: the double-link input for the hotel-verification pass. -/
def exFlightOne : TravelLog :=
  { baseLog with
      id := "f1"
      destination_city := "Paris"
      destination_country := "France"
      start_date := 100
      status := "Open - Awaiting return"
      hotel_verification_status := "missing" }

def exFlightTwo : TravelLog :=
  { baseLog with
      id := "f2"
      destination_city := "Paris"
      destination_country := "France"
      start_date := 101
      status := "Open - Awaiting return"
      hotel_verification_status := "missing" }

def exHotel : TravelLog :=
  { baseLog with
      id := "h1"
      travel_type := "accommodation"
      destination_city := "Paris"
      destination_country := "France"
      start_date := 101
      status := "Open - Awaiting return"
      hotel_verification_status := "not_required" }

/-- A raw travel record as ingestion receives it (round trip to Muscat,
2025-01-05 to 2025-01-09). -/
def exRawTrip : TravelLog :=
  { baseLog with
      id := "t1"
      destination_city := "Muscat"
      destination_country := "Oman"
      start_date := 20093
      end_date := some 20097
      return_date := some 20097 }

/-- Cross-currency pair refuting parity symmetry: 1050 USD against
1000 INR under a 1 USD = 1 INR rate table.  The difference 50 is below
5% of 1050 but not below 5% of 1000. -/
def exAmtA : Expense :=
  ⟨"a1", "shop", 1050, "USD", ⟨2025, 3, 100⟩, "Meals", "receipt", none⟩

def exAmtB : Expense :=
  ⟨"b1", "shop", 1000, "INR", ⟨2025, 3, 100⟩, "Meals", "receipt", none⟩

def exAmtRates : List (String × ℚ) := [("USD", 1)]

/-- Two receipt-sourced (proof-role) expenses with identical merchant,
amount, currency and adjacent March-2025 dates (epoch days 20157/20158). -/
def exProofA : Expense :=
  ⟨"pA", "coffee shop", 50, "AED", ⟨2025, 3, 20157⟩, "Meals", "receipt", none⟩

def exProofB : Expense :=
  ⟨"pB", "coffee shop", 50, "AED", ⟨2025, 3, 20158⟩, "Meals", "receipt", none⟩

/-- An advisory proposal pairing the two proof records: the validation
pass checks only the receipt side's role, so it survives. -/
def exProposal : Proposal := ⟨"pA", "pB", "", "Receipt", "match"⟩

def exPeriod : Period := ⟨"March", 2025⟩

/-- The reconciliation run on the proof-proof input. -/
def exRun : ReconOut := filteredData [exProofA, exProofB] [exProposal] [] exPeriod "All Accounts"

/-- The condition under which ingestion assigns the document duration
rather than 1: home-bound, round trip, or accommodation. -/
def extendedStay (l : TravelLog) : Bool :=
  let isAccommodation := l.travel_type == "accommodation"
  let isHome := isHomeLocation l
  let isRoundTrip := !isAccommodation && !isHome && l.return_date.isSome
  isHome || isRoundTrip || isAccommodation

/-- The Scenario-B outbound after bridging: Complete, bidirectionally
linked, inclusive `days_spent` of 5. -/
def exOutboundBridged : TravelLog :=
  { exOutbound with
      status := "Complete"
      return_date := some 20097
      return_flight_id := some "f11"
      days_spent := 5 }

/-- The Scenario-B arrival after bridging. -/
def exArrivalBridged : TravelLog :=
  { exArrival with outbound_flight_id := some "f10" }

/-! # Theorems -/

/-! ## C10: one verification pass can link one hotel to two flights -/

/-- **C10**: on the two-flights-one-hotel input, a single
hotel-verification pass leaves both flights verified with
`linked_hotel_id` referencing the same hotel record, because the
candidate test reads the stale in-memory hotel whose `linked_flight_id`
is still unset after the first write. -/
theorem hotel_pass_links_one_hotel_to_two_flights :
    ((verifyPass [exFlightOne, exFlightTwo, exHotel]).filter
        (fun l => l.travel_type == "flight" &&
          l.hotel_verification_status == "verified" &&
          l.linked_hotel_id == some "h1")).length = 2 := by
  decide

/-! ## C9: empty anchor pool is not an error -/

/-- **C9**: a reconciliation-agent run whose expense pool contains no
anchor-role item returns normally with an empty matched list, every proof
listed as unmatched, and an empty unmatched-anchors list. -/
theorem agent_empty_anchor_pool (oracle : Nat → List AuditItem → Option (List AgentMatch))
    (expenses : List AuditItem)
    (h : expenses.filter (fun e => e.role == "ANCHOR") = []) :
    agentRun oracle expenses =
      ⟨[], (expenses.filter (fun e => e.role == "PROOF")).map (fun p => p.id), []⟩ := by
  simp [agentRun, h]

/-- Witness for C9 at a one-proof pool with an always-failing oracle. -/
theorem agent_empty_anchor_pool_witness :
    agentRun (fun _ _ => none) [⟨"p1", "PROOF"⟩] = ⟨[], ["p1"], []⟩ :=
  agent_empty_anchor_pool (fun _ _ => none) [⟨"p1", "PROOF"⟩] rfl

/-! ## C2: amount parity is not symmetric across currencies -/

/-- **C2** (counterexample): on 1050 USD versus 1000 INR with a
1 USD = 1 INR rate table, parity holds with the USD record on the bank
side but fails with the records swapped, because the 5% tolerance is
relative to the first argument's base-currency amount.  This refutes the
claimed symmetry of the amount-parity predicate. -/
theorem amount_parity_asymmetric :
    amountParity exAmtA exAmtB exAmtRates = true ∧
    amountParity exAmtB exAmtA exAmtRates = false := by
  have hu : upperStr "USD" = "USD" := by decide
  constructor <;>
    · simp +decide [amountParity, convertToINR, exAmtA, exAmtB, exAmtRates, hu, List.lookup]
      norm_num

/-- **C2** (amended): the amount-parity predicate is symmetric whenever
the two currencies are identical; for differing currencies the relative
tolerance is 5% of the first (bank-side) argument's base-currency amount,
so symmetry can fail. -/
theorem amount_parity_symm_same_currency (a b : Expense) (rates : List (String × ℚ))
    (h : a.currency = b.currency) :
    amountParity a b rates = amountParity b a rates := by
  simp [amountParity, h, abs_sub_comm]

/-- Witness for the amended C2 at two concrete AED expenses. -/
theorem amount_parity_symm_same_currency_witness :
    amountParity exProofA exProofB [] = amountParity exProofB exProofA [] :=
  amount_parity_symm_same_currency exProofA exProofB [] rfl

/-! ## C3: compliance scoring -/

/-- **C3**: for every reconciliation run, the compliance score equals
`round(100 * matched / (matched + mandatory_missing + standard_missing))`
with `optional_missing` excluded from the denominator, and equals 100
when the denominator is zero. -/
theorem compliance_score_formula (expenses : List Expense) (recon : List Proposal)
    (rates : List (String × ℚ)) (period : Period) (auditBank : String) :
    (filteredData expenses recon rates period auditBank).score =
      (let out := filteredData expenses recon rates period auditBank
       let denom := out.matched.length + out.mandatoryMissing.length +
         out.standardMissing.length
       if 0 < denom then jsRound ((100 * (out.matched.length : ℚ)) / (denom : ℚ))
       else 100) := by
  dsimp only [filteredData]
  split
  · congr 1
    push_cast
    ring
  · rfl

/-! ## C5: days_spent at ingestion -/

/-- Every element of the ingestion fold is in the accumulator or a seeded
accepted record. -/
theorem ingest_fold_mem (existing : List TravelLog) :
    ∀ (xs acc : List TravelLog) (l : TravelLog),
      l ∈ xs.foldl (fun acc l =>
        if existing.any (fun e => isDuplicateOf l e) then acc else acc ++ [seedLog l]) acc →
      l ∈ acc ∨ ∃ l0, l = seedLog l0
  | [], _, l, h => Or.inl h
  | x :: xs, acc, l, h => by
    simp only [List.foldl_cons] at h
    rcases ingest_fold_mem existing xs _ l h with h' | h'
    · split at h'
      · exact Or.inl h'
      · rcases List.mem_append.mp h' with h'' | h''
        · exact Or.inl h''
        · exact Or.inr ⟨x, by simpa using h''⟩
    · exact Or.inr h'

/-- Every record produced by ingestion is a seeded accepted record. -/
theorem mem_ingest {existing news : List TravelLog} {l : TravelLog}
    (hl : l ∈ ingest existing news) : ∃ l0, l = seedLog l0 := by
  rcases ingest_fold_mem existing (sortLogs news) [] l hl with h | h
  · simp at h
  · exact h

/-- **C5**: every travel record accepted by ingestion has
`days_spent ≥ 1`; it equals the inclusive day count between start date
and end date when the record is home-bound, a round trip, or an
accommodation record, and equals 1 otherwise. -/
theorem ingested_days_spent (existing news : List TravelLog) (l : TravelLog)
    (hl : l ∈ ingest existing news) :
    1 ≤ l.days_spent ∧
    (extendedStay l = true →
      l.days_spent = |l.end_date.getD l.start_date - l.start_date| + 1) ∧
    (extendedStay l = false → l.days_spent = 1) := by
  obtain ⟨l0, rfl⟩ := mem_ingest hl
  have hdays : (seedLog l0).days_spent =
      if extendedStay l0 then calculateDuration l0.start_date l0.end_date else 1 := rfl
  have hext : extendedStay (seedLog l0) = extendedStay l0 := rfl
  have hend : (seedLog l0).end_date = l0.end_date := rfl
  have hstart : (seedLog l0).start_date = l0.start_date := rfl
  have habs : (0 : Int) ≤ |l0.end_date.getD l0.start_date - l0.start_date| := abs_nonneg _
  rw [hext, hdays, hend, hstart]
  unfold calculateDuration
  rcases h : extendedStay l0 with _ | _ <;> simp

/-! ## C6: bridging selects the nearest preceding unbridged outbound -/

/-- A successful `findFirst` scan splits the id list at the selected
record: everything scanned earlier has no current record satisfying the
predicate. -/
theorem findFirst_split (store : List TravelLog) (p : TravelLog → Bool) :
    ∀ (ids : List String) (o : TravelLog), findFirst store p ids = some o →
      ∃ l1 i l2, ids = l1 ++ i :: l2 ∧
        store.find? (fun l => l.id == i) = some o ∧ p o = true ∧
        ∀ j ∈ l1, ∀ o', store.find? (fun l => l.id == j) = some o' → p o' = false
  | [], o, h => by simp [findFirst] at h
  | i :: rest, o, h => by
    rw [findFirst] at h
    cases hf : store.find? (fun l => l.id == i) with
    | some o' =>
      rw [hf] at h
      dsimp only at h
      by_cases hp : p o' = true
      · rw [if_pos hp] at h
        obtain rfl : o' = o := by injection h
        exact ⟨[], i, rest, rfl, hf, hp, by simp⟩
      · rw [if_neg hp] at h
        obtain ⟨l1, i', l2, hrest, hfi, hpo, hpre⟩ := findFirst_split store p rest o h
        refine ⟨i :: l1, i', l2, by simp [hrest], hfi, hpo, ?_⟩
        intro j hj o'' hf''
        rcases List.mem_cons.mp hj with rfl | hj'
        · rw [hf] at hf''
          obtain rfl : o' = o'' := by injection hf''
          simpa using hp
        · exact hpre j hj' o'' hf''
    | none =>
      rw [hf] at h
      dsimp only at h
      obtain ⟨l1, i', l2, hrest, hfi, hpo, hpre⟩ := findFirst_split store p rest o h
      refine ⟨i :: l1, i', l2, by simp [hrest], hfi, hpo, ?_⟩
      intro j hj o'' hf''
      rcases List.mem_cons.mp hj with rfl | hj'
      · rw [hf] at hf''
        cases hf''
      · exact hpre j hj' o'' hf''

/-- **C6**: in every bridging step, the outbound selected for a home-bound
arrival (scanning the sorted open-outbound list in reverse chronological
order) starts on or before the arrival, is not yet bridged, and no other
eligible open outbound starts later than it; and on the concrete
Scenario-B input (open outbound to Muscat on 2025-01-05, home arrival on
2025-01-09) the pass makes the outbound Complete with `days_spent = 5`,
`return_date`/`return_flight_id` set, and the arrival linked back. -/
theorem bridging_selects_nearest_preceding :
    (∀ (store : List TravelLog) (a : TravelLog) (ids : List String),
      ids.Pairwise (fun i j => ∀ si sj, idStart store i = some si →
        idStart store j = some sj → si ≤ sj) →
      ∀ o, findFirst store (fun x => eligibleOutbound a x) ids.reverse = some o →
        (o.start_date ≤ a.start_date ∧ optTruthy o.return_flight_id = false) ∧
        ∀ j ∈ ids, ∀ o', store.find? (fun l => l.id == j) = some o' →
          eligibleOutbound a o' = true → o'.start_date ≤ o.start_date) ∧
    bridgePass [exOutbound, exArrival] = [exOutboundBridged, exArrivalBridged] := by
  constructor
  · intro store a ids hsort o ho
    obtain ⟨l1, i, l2, hrev, hfi, hpo, hpre⟩ :=
      findFirst_split store (fun x => eligibleOutbound a x) ids.reverse o ho
    have helig : o.start_date ≤ a.start_date ∧ optTruthy o.return_flight_id = false := by
      have := hpo
      simp [eligibleOutbound] at this
      exact ⟨this.1, this.2⟩
    refine ⟨helig, ?_⟩
    have hids : ids = l2.reverse ++ [i] ++ l1.reverse := by
      have : ids.reverse.reverse = (l1 ++ i :: l2).reverse := by rw [hrev]
      simpa [List.reverse_append] using this
    have hsort' : (l2.reverse ++ [i] ++ l1.reverse).Pairwise
        (fun i j => ∀ si sj, idStart store i = some si →
          idStart store j = some sj → si ≤ sj) := by
      rw [← hids]; exact hsort
    rw [List.pairwise_append, List.pairwise_append] at hsort'
    intro j hj o' hf' helig'
    rw [hids] at hj
    rcases List.mem_append.mp hj with hj' | hj'
    · rcases List.mem_append.mp hj' with hj2 | hj2
      · -- j is scanned after o in reverse order, i.e. earlier in ids: sorted below o
        have hrel := hsort'.1.2.2 j hj2 i (by simp)
        have hidj : idStart store j = some o'.start_date := by
          unfold idStart; rw [hf']; rfl
        have hidi : idStart store i = some o.start_date := by
          unfold idStart; rw [hfi]; rfl
        exact hrel o'.start_date o.start_date hidj hidi
      · -- j = i: the selected outbound itself
        have : j = i := by simpa using hj2
        subst this
        rw [hfi] at hf'
        obtain rfl : o = o' := by injection hf'
        exact le_refl _
    · -- j was scanned before o in reverse order and rejected
      have := hpre j (by simpa using hj') o' hf'
      rw [helig'] at this
      cases this
  · decide

/-- Witness for the selection part of C6 on the Scenario-B working set. -/
theorem bridging_selects_nearest_preceding_witness :
    ((exOutbound.start_date ≤ exArrival.start_date ∧
       optTruthy exOutbound.return_flight_id = false) ∧
     ∀ j ∈ ["f10"], ∀ o',
       ([exOutbound, exArrival].find? (fun l => l.id == j) = some o') →
       eligibleOutbound exArrival o' = true →
       o'.start_date ≤ exOutbound.start_date) :=
  bridging_selects_nearest_preceding.1 [exOutbound, exArrival] exArrival ["f10"]
    (by simp) exOutbound (by decide)

/-- Witness for C5 at a concrete ingested round trip. -/
theorem ingested_days_spent_witness :
    1 ≤ (seedLog exRawTrip).days_spent ∧
    (extendedStay (seedLog exRawTrip) = true →
      (seedLog exRawTrip).days_spent =
        |(seedLog exRawTrip).end_date.getD (seedLog exRawTrip).start_date -
          (seedLog exRawTrip).start_date| + 1) ∧
    (extendedStay (seedLog exRawTrip) = false → (seedLog exRawTrip).days_spent = 1) :=
  ingested_days_spent [] [exRawTrip] (seedLog exRawTrip) (by decide)

/-! ## C7: bridging produces one-to-one, symmetric links -/

@[simp] theorem bridgeOutUpd_id (a : TravelLog) (days : Int) (l : TravelLog) :
    (bridgeOutUpd a days l).id = l.id := rfl

@[simp] theorem bridgeOutUpd_out (a : TravelLog) (days : Int) (l : TravelLog) :
    (bridgeOutUpd a days l).outbound_flight_id = l.outbound_flight_id := rfl

@[simp] theorem bridgeOutUpd_ret (a : TravelLog) (days : Int) (l : TravelLog) :
    (bridgeOutUpd a days l).return_flight_id = some a.id := rfl

@[simp] theorem bridgeArrUpd_id (o : TravelLog) (l : TravelLog) :
    (bridgeArrUpd o l).id = l.id := rfl

@[simp] theorem bridgeArrUpd_out (o : TravelLog) (l : TravelLog) :
    (bridgeArrUpd o l).outbound_flight_id = some o.id := rfl

@[simp] theorem bridgeArrUpd_ret (o : TravelLog) (l : TravelLog) :
    (bridgeArrUpd o l).return_flight_id = l.return_flight_id := rfl

/-- A record returned by `findFirst` is a member of the working set and
satisfies the scanned predicate. -/
theorem findFirst_memP {store : List TravelLog} {p : TravelLog → Bool}
    {ids : List String} {o : TravelLog} (h : findFirst store p ids = some o) :
    o ∈ store ∧ p o = true := by
  obtain ⟨l1, i, l2, _, hfi, hpo, _⟩ := findFirst_split store p ids o h
  exact ⟨List.mem_of_find?_eq_some hfi, hpo⟩

/-- One bridging step never changes the id sequence of the working set. -/
theorem bridgeOne_id_map (openIds : List String) (store : List TravelLog) (aId : String) :
    (bridgeOne openIds store aId).map (fun l => l.id) = store.map (fun l => l.id) := by
  unfold bridgeOne
  cases store.find? (fun l => l.id == aId) with
  | none => rfl
  | some a =>
    dsimp only
    split
    · rfl
    · cases findFirst store (fun o => eligibleOutbound a o) openIds.reverse with
      | none => rfl
      | some o =>
        dsimp only
        rw [List.map_map]
        apply List.map_congr_left
        intro x _
        simp only [Function.comp_apply]
        split <;> split <;> rfl

/-- Updating a not-yet-bridged arrival `a` and a not-yet-bridged eligible
outbound `o` preserves the symmetric-link invariant. -/
theorem linkSym_update (store : List TravelLog) (a o : TravelLog) (days : Int)
    (hnd : (store.map (fun l => l.id)).Nodup)
    (hsym : LinkSym store)
    (haMem : a ∈ store) (hoMem : o ∈ store)
    (haOut : a.outbound_flight_id = none) (hoRet : o.return_flight_id = none) :
    LinkSym (store.map (fun l =>
      let l1 := if l.id == o.id then bridgeOutUpd a days l else l
      if l1.id == a.id then bridgeArrUpd o l1 else l1)) := by
  have hinj : ∀ ⦃x⦄, x ∈ store → ∀ ⦃y⦄, y ∈ store → x.id = y.id → x = y :=
    fun x hx y hy h => List.inj_on_of_nodup_map hnd hx hy h
  set g : TravelLog → TravelLog := fun l =>
    let l1 := if l.id == o.id then bridgeOutUpd a days l else l
    if l1.id == a.id then bridgeArrUpd o l1 else l1 with hgd
  have hgid : ∀ l : TravelLog, (g l).id = l.id := by
    intro l
    rw [hgd]
    dsimp only
    split <;> split <;> rfl
  have hgout : ∀ l : TravelLog,
      (g l).outbound_flight_id = if l.id = a.id then some o.id
        else l.outbound_flight_id := by
    intro l
    rw [hgd]
    dsimp only
    by_cases h1 : l.id = o.id
    · by_cases h2 : l.id = a.id
      · simp [h1, h2, h1.symm.trans h2]
      · have h3 : o.id ≠ a.id := fun h => h2 (h1.trans h)
        simp [h1, h2, h3]
    · by_cases h2 : l.id = a.id
      · have h3 : ¬a.id = o.id := fun h => h1 (h2.trans h)
        simp [h1, h2, h3]
      · simp [h1, h2]
  have hgret : ∀ l : TravelLog,
      (g l).return_flight_id = if l.id = o.id then some a.id
        else l.return_flight_id := by
    intro l
    rw [hgd]
    dsimp only
    by_cases h1 : l.id = o.id
    · by_cases h2 : l.id = a.id
      · simp [h1, h2, h1.symm.trans h2]
      · have h3 : o.id ≠ a.id := fun h => h2 (h1.trans h)
        simp [h1, h2, h3]
    · by_cases h2 : l.id = a.id
      · have h3 : ¬a.id = o.id := fun h => h1 (h2.trans h)
        simp [h1, h2, h3]
      · simp [h1, h2]
  constructor
  · intro x hx i hxi
    obtain ⟨l, hl, rfl⟩ := List.mem_map.1 hx
    rw [hgout] at hxi
    by_cases hla : l.id = a.id
    · rw [if_pos hla] at hxi
      obtain rfl : o.id = i := by injection hxi
      refine ⟨g o, List.mem_map.2 ⟨o, hoMem, rfl⟩, hgid o, ?_⟩
      rw [hgret o, if_pos rfl, hgid l, hla]
    · rw [if_neg hla] at hxi
      obtain ⟨p, hp, hpId, hpRet⟩ := hsym.1 l hl i hxi
      refine ⟨g p, List.mem_map.2 ⟨p, hp, rfl⟩, by rw [hgid p, hpId], ?_⟩
      have hpo : p.id ≠ o.id := by
        intro h
        obtain rfl : p = o := hinj hp hoMem h
        rw [hoRet] at hpRet
        cases hpRet
      rw [hgret p, if_neg hpo, hgid l]
      exact hpRet
  · intro x hx i hxi
    obtain ⟨l, hl, rfl⟩ := List.mem_map.1 hx
    rw [hgret] at hxi
    by_cases hlo : l.id = o.id
    · rw [if_pos hlo] at hxi
      obtain rfl : a.id = i := by injection hxi
      refine ⟨g a, List.mem_map.2 ⟨a, haMem, rfl⟩, hgid a, ?_⟩
      rw [hgout a, if_pos rfl, hgid l, hlo]
    · rw [if_neg hlo] at hxi
      obtain ⟨p, hp, hpId, hpOut⟩ := hsym.2 l hl i hxi
      refine ⟨g p, List.mem_map.2 ⟨p, hp, rfl⟩, by rw [hgid p, hpId], ?_⟩
      have hpa : p.id ≠ a.id := by
        intro h
        obtain rfl : p = a := hinj hp haMem h
        rw [haOut] at hpOut
        cases hpOut
      rw [hgout p, if_neg hpa, hgid l]
      exact hpOut

/-- One bridging step preserves nonempty ids, id-uniqueness and the
symmetric-link invariant of the working set. -/
theorem bridgeOne_preserves (openIds : List String) (store : List TravelLog) (aId : String)
    (hid : ∀ l ∈ store, l.id ≠ "")
    (hnd : (store.map (fun l => l.id)).Nodup)
    (hsym : LinkSym store) :
    (∀ l ∈ bridgeOne openIds store aId, l.id ≠ "") ∧
    ((bridgeOne openIds store aId).map (fun l => l.id)).Nodup ∧
    LinkSym (bridgeOne openIds store aId) := by
  have hmap := bridgeOne_id_map openIds store aId
  refine ⟨?_, by rw [hmap]; exact hnd, ?_⟩
  · intro l hl
    have hmem : l.id ∈ (bridgeOne openIds store aId).map (fun l => l.id) :=
      List.mem_map_of_mem _ hl
    rw [hmap] at hmem
    obtain ⟨x, hx, hxe⟩ := List.mem_map.1 hmem
    exact hxe ▸ hid x hx
  · unfold bridgeOne
    cases hfa : store.find? (fun l => l.id == aId) with
    | none => exact hsym
    | some a =>
      have haMem : a ∈ store := List.mem_of_find?_eq_some hfa
      have haId : a.id = aId := by simpa using List.find?_some hfa
      dsimp only
      split
      · exact hsym
      · rename_i hout
        cases hff : findFirst store (fun o => eligibleOutbound a o) openIds.reverse with
        | none => exact hsym
        | some o =>
          obtain ⟨hoMem, hoElig⟩ := findFirst_memP hff
          have haOut : a.outbound_flight_id = none := by
            cases hao : a.outbound_flight_id with
            | none => rfl
            | some s =>
              rw [hao] at hout
              have hs : s = "" := by simpa [optTruthy] using hout
              obtain ⟨p, hpMem, hpId, _⟩ := hsym.1 a haMem s hao
              exact absurd (hpId.trans hs) (hid p hpMem)
          have hoRet : o.return_flight_id = none := by
            have hoT : optTruthy o.return_flight_id = false := by
              simp only [eligibleOutbound, Bool.and_eq_true, Bool.not_eq_true'] at hoElig
              exact hoElig.2
            cases hor : o.return_flight_id with
            | none => rfl
            | some s =>
              rw [hor] at hoT
              have hs : s = "" := by simpa [optTruthy] using hoT
              obtain ⟨p, hpMem, hpId, _⟩ := hsym.2 o hoMem s hor
              exact absurd (hpId.trans hs) (hid p hpMem)
          rw [← haId]
          exact linkSym_update store a o _ hnd hsym haMem hoMem haOut hoRet

/-- The bridging fold preserves nonempty ids, id-uniqueness and the
symmetric-link invariant. -/
theorem bridgeFold_preserves (openIds : List String) :
    ∀ (aIds : List String) (store : List TravelLog),
      (∀ l ∈ store, l.id ≠ "") → ((store.map (fun l => l.id)).Nodup) → LinkSym store →
      (∀ l ∈ aIds.foldl (fun st aId => bridgeOne openIds st aId) store, l.id ≠ "") ∧
      ((aIds.foldl (fun st aId => bridgeOne openIds st aId) store).map
        (fun l => l.id)).Nodup ∧
      LinkSym (aIds.foldl (fun st aId => bridgeOne openIds st aId) store)
  | [], store, h1, h2, h3 => ⟨h1, h2, h3⟩
  | aId :: rest, store, h1, h2, h3 => by
    simp only [List.foldl_cons]
    obtain ⟨g1, g2, g3⟩ := bridgeOne_preserves openIds store aId h1 h2 h3
    exact bridgeFold_preserves openIds rest _ g1 g2 g3

/-- **C7**: over every working set with nonempty, pairwise-distinct record
ids satisfying the symmetric-link invariant, a bridging pass keeps the
links symmetric and one-to-one: no outbound ends linked to two distinct
arrivals, and no arrival ends linked to two distinct outbounds. -/
theorem bridging_one_to_one (logs : List TravelLog)
    (hid : ∀ l ∈ logs, l.id ≠ "")
    (hnd : (logs.map (fun l => l.id)).Nodup)
    (hsym : LinkSym logs) :
    LinkSym (bridgePass logs) ∧
    (∀ a1 ∈ bridgePass logs, ∀ a2 ∈ bridgePass logs, ∀ i,
      a1.outbound_flight_id = some i → a2.outbound_flight_id = some i → a1 = a2) ∧
    (∀ o1 ∈ bridgePass logs, ∀ o2 ∈ bridgePass logs, ∀ i,
      o1.return_flight_id = some i → o2.return_flight_id = some i → o1 = o2) := by
  obtain ⟨g1, g2, g3⟩ := bridgeFold_preserves
    ((sortLogs (logs.filter
      (fun l => l.status == "Open - Awaiting return" && !isHomeLocation l))).map (·.id))
    ((sortLogs (logs.filter
      (fun l => l.travel_type == "flight" && isHomeLocation l))).map (·.id))
    logs hid hnd hsym
  have hres : bridgePass logs =
      ((sortLogs (logs.filter
        (fun l => l.travel_type == "flight" && isHomeLocation l))).map (·.id)).foldl
        (fun st aId => bridgeOne
          ((sortLogs (logs.filter
            (fun l => l.status == "Open - Awaiting return" && !isHomeLocation l))).map (·.id))
          st aId) logs := rfl
  rw [hres]
  have hinj : ∀ ⦃x⦄, x ∈ _ → ∀ ⦃y⦄, y ∈ _ → TravelLog.id x = TravelLog.id y → x = y :=
    fun x hx y hy h => List.inj_on_of_nodup_map g2 hx hy h
  refine ⟨g3, ?_, ?_⟩
  · intro a1 h1m a2 h2m i e1 e2
    obtain ⟨o1, ho1, hoid1, hret1⟩ := g3.1 a1 h1m i e1
    obtain ⟨o2, ho2, hoid2, hret2⟩ := g3.1 a2 h2m i e2
    obtain rfl : o1 = o2 := hinj ho1 ho2 (hoid1.trans hoid2.symm)
    rw [hret1] at hret2
    have : a1.id = a2.id := by injection hret2
    exact hinj h1m h2m this
  · intro o1 h1m o2 h2m i e1 e2
    obtain ⟨a1, ha1, haid1, hout1⟩ := g3.2 o1 h1m i e1
    obtain ⟨a2, ha2, haid2, hout2⟩ := g3.2 o2 h2m i e2
    obtain rfl : a1 = a2 := hinj ha1 ha2 (haid1.trans haid2.symm)
    rw [hout1] at hout2
    have : o1.id = o2.id := by injection hout2
    exact hinj h1m h2m this

/-- Witness for C7 on the concrete Scenario-B working set. -/
theorem bridging_one_to_one_witness :
    LinkSym (bridgePass [exOutbound, exArrival]) ∧
    (∀ a1 ∈ bridgePass [exOutbound, exArrival], ∀ a2 ∈ bridgePass [exOutbound, exArrival],
      ∀ i, a1.outbound_flight_id = some i → a2.outbound_flight_id = some i → a1 = a2) ∧
    (∀ o1 ∈ bridgePass [exOutbound, exArrival], ∀ o2 ∈ bridgePass [exOutbound, exArrival],
      ∀ i, o1.return_flight_id = some i → o2.return_flight_id = some i → o1 = o2) :=
  bridging_one_to_one [exOutbound, exArrival] (by decide) (by decide)
    (by
      constructor <;> intro x hx j hj <;> fin_cases hx <;>
        simp_all [exOutbound, exArrival, baseLog])

/-! ## C8: hotel-flight verification is idempotent -/

@[simp] theorem flightWrite_id (h l : TravelLog) : (flightWrite h l).id = l.id := rfl
@[simp] theorem flightWrite_type (h l : TravelLog) :
    (flightWrite h l).travel_type = l.travel_type := rfl
@[simp] theorem flightWrite_city (h l : TravelLog) :
    (flightWrite h l).destination_city = l.destination_city := rfl
@[simp] theorem flightWrite_country (h l : TravelLog) :
    (flightWrite h l).destination_country = l.destination_country := rfl
@[simp] theorem flightWrite_start (h l : TravelLog) :
    (flightWrite h l).start_date = l.start_date := rfl
@[simp] theorem flightWrite_linked (h l : TravelLog) :
    (flightWrite h l).linked_flight_id = l.linked_flight_id := rfl
@[simp] theorem flightWrite_hvs (h l : TravelLog) :
    (flightWrite h l).hotel_verification_status = "verified" := rfl

@[simp] theorem hotelWrite_id (i : String) (l : TravelLog) : (hotelWrite i l).id = l.id := rfl
@[simp] theorem hotelWrite_type (i : String) (l : TravelLog) :
    (hotelWrite i l).travel_type = l.travel_type := rfl
@[simp] theorem hotelWrite_city (i : String) (l : TravelLog) :
    (hotelWrite i l).destination_city = l.destination_city := rfl
@[simp] theorem hotelWrite_country (i : String) (l : TravelLog) :
    (hotelWrite i l).destination_country = l.destination_country := rfl
@[simp] theorem hotelWrite_start (i : String) (l : TravelLog) :
    (hotelWrite i l).start_date = l.start_date := rfl
@[simp] theorem hotelWrite_linked (i : String) (l : TravelLog) :
    (hotelWrite i l).linked_flight_id = some i := rfl
@[simp] theorem hotelWrite_hvs (i : String) (l : TravelLog) :
    (hotelWrite i l).hotel_verification_status = "verified" := rfl

/-- The verification pass is the sequence of writes decided by the stale
snapshot: decisions never read the evolving store. -/
theorem verifyPass_eq_writes (logs : List TravelLog) :
    verifyPass logs = (vMatches logs).foldl
      (fun store m => updById (updById store m.1.id (flightWrite m.2)) m.2.id
        (hotelWrite m.1.id)) logs := by
  unfold verifyPass vMatches
  generalize logs.filter (fun l => l.travel_type == "flight") = flights
  generalize logs.filter (fun l => l.travel_type == "accommodation") = hotels
  induction flights generalizing logs with
  | nil => rfl
  | cons f fl ih =>
    simp only [List.foldl_cons, List.filterMap_cons]
    by_cases hskip : (f.hotel_verification_status == "verified" || isHomeLocation f) = true
    · rw [if_pos hskip, if_pos hskip]
      exact ih logs
    · rw [if_neg hskip, if_neg hskip]
      cases hfind : hotels.find? (fun hotel => hotelCand f hotel) with
      | none => simpa using ih logs
      | some h => simpa using ih _

/-- A fold of pointwise store maps is a single map of the pointwise fold. -/
theorem foldl_map_comm : ∀ (ms : List (TravelLog × TravelLog)) (store : List TravelLog),
    ms.foldl (fun st m => st.map (fun x => wStep m x)) store =
      store.map (fun x => wAll ms x)
  | [], store => by simp [wAll]
  | m :: ms, store => by
    simp only [List.foldl_cons]
    rw [foldl_map_comm ms, List.map_map]
    rfl

/-- The two writes of one match, as a pointwise map over the store. -/
theorem writes_as_map (store : List TravelLog) (m : TravelLog × TravelLog) :
    updById (updById store m.1.id (flightWrite m.2)) m.2.id (hotelWrite m.1.id) =
      store.map (fun x => wStep m x) := by
  unfold updById wStep
  rw [List.map_map]
  rfl

/-- `verifyPass` acts pointwise: every record of the result is the write
fold applied to the corresponding input record. -/
theorem verifyPass_eq_map (logs : List TravelLog) :
    verifyPass logs = logs.map (fun x => wAll (vMatches logs) x) := by
  rw [verifyPass_eq_writes]
  have : ∀ (ms : List (TravelLog × TravelLog)) (store : List TravelLog),
      ms.foldl (fun st m => updById (updById st m.1.id (flightWrite m.2)) m.2.id
        (hotelWrite m.1.id)) store = ms.foldl (fun st m => st.map (fun x => wStep m x)) store := by
    intro ms
    induction ms with
    | nil => intro store; rfl
    | cons m ms ih =>
      intro store
      simp only [List.foldl_cons]
      rw [writes_as_map, ih]
  rw [this, foldl_map_comm]

@[simp] theorem wAll_nil (x : TravelLog) : wAll [] x = x := rfl

theorem wAll_cons (m : TravelLog × TravelLog) (ms : List (TravelLog × TravelLog))
    (x : TravelLog) : wAll (m :: ms) x = wAll ms (wStep m x) := rfl

theorem wStep_id (m : TravelLog × TravelLog) (x : TravelLog) : (wStep m x).id = x.id := by
  unfold wStep; dsimp only; split <;> split <;> rfl

theorem wStep_type (m : TravelLog × TravelLog) (x : TravelLog) :
    (wStep m x).travel_type = x.travel_type := by
  unfold wStep; dsimp only; split <;> split <;> rfl

theorem wStep_city (m : TravelLog × TravelLog) (x : TravelLog) :
    (wStep m x).destination_city = x.destination_city := by
  unfold wStep; dsimp only; split <;> split <;> rfl

theorem wStep_country (m : TravelLog × TravelLog) (x : TravelLog) :
    (wStep m x).destination_country = x.destination_country := by
  unfold wStep; dsimp only; split <;> split <;> rfl

theorem wStep_start (m : TravelLog × TravelLog) (x : TravelLog) :
    (wStep m x).start_date = x.start_date := by
  unfold wStep; dsimp only; split <;> split <;> rfl

theorem wAll_id : ∀ (ms : List (TravelLog × TravelLog)) (x : TravelLog),
    (wAll ms x).id = x.id
  | [], _ => rfl
  | m :: ms, x => by rw [wAll_cons, wAll_id ms (wStep m x), wStep_id]

theorem wAll_type : ∀ (ms : List (TravelLog × TravelLog)) (x : TravelLog),
    (wAll ms x).travel_type = x.travel_type
  | [], _ => rfl
  | m :: ms, x => by rw [wAll_cons, wAll_type ms (wStep m x), wStep_type]

theorem wAll_city : ∀ (ms : List (TravelLog × TravelLog)) (x : TravelLog),
    (wAll ms x).destination_city = x.destination_city
  | [], _ => rfl
  | m :: ms, x => by rw [wAll_cons, wAll_city ms (wStep m x), wStep_city]

theorem wAll_country : ∀ (ms : List (TravelLog × TravelLog)) (x : TravelLog),
    (wAll ms x).destination_country = x.destination_country
  | [], _ => rfl
  | m :: ms, x => by rw [wAll_cons, wAll_country ms (wStep m x), wStep_country]

theorem wAll_start : ∀ (ms : List (TravelLog × TravelLog)) (x : TravelLog),
    (wAll ms x).start_date = x.start_date
  | [], _ => rfl
  | m :: ms, x => by rw [wAll_cons, wAll_start ms (wStep m x), wStep_start]

theorem wStep_verified_mono (m : TravelLog × TravelLog) (x : TravelLog)
    (h : x.hotel_verification_status = "verified") :
    (wStep m x).hotel_verification_status = "verified" := by
  unfold wStep
  dsimp only
  split <;> split <;> simp [h]

theorem wAll_verified_mono : ∀ (ms : List (TravelLog × TravelLog)) (x : TravelLog),
    x.hotel_verification_status = "verified" →
    (wAll ms x).hotel_verification_status = "verified"
  | [], _, h => h
  | m :: ms, x, h => by
    rw [wAll_cons]
    exact wAll_verified_mono ms _ (wStep_verified_mono m x h)

theorem wStep_sets_verified (m : TravelLog × TravelLog) (x : TravelLog)
    (h : x.id = m.1.id ∨ x.id = m.2.id) :
    (wStep m x).hotel_verification_status = "verified" := by
  unfold wStep
  dsimp only
  by_cases h1 : x.id = m.1.id
  · simp only [h1, beq_self_eq_true, if_true]
    split <;> simp
  · have h2 : x.id = m.2.id := h.resolve_left h1
    have h3 : ¬m.2.id = m.1.id := fun he => h1 (h2.trans he)
    simp [h1, h2, h3]

theorem wAll_sets_verified : ∀ (ms : List (TravelLog × TravelLog)) (x : TravelLog),
    (∃ m ∈ ms, x.id = m.1.id ∨ x.id = m.2.id) →
    (wAll ms x).hotel_verification_status = "verified"
  | [], _, ⟨m, hm, _⟩ => absurd hm (List.not_mem_nil m)
  | m :: ms, x, ⟨m', hm', hor⟩ => by
    rw [wAll_cons]
    rcases List.mem_cons.mp hm' with rfl | hm2
    · exact wAll_verified_mono ms _ (wStep_sets_verified m' x hor)
    · exact wAll_sets_verified ms _ ⟨m', hm2, by rwa [wStep_id]⟩

theorem wStep_linked (m : TravelLog × TravelLog) (x : TravelLog) :
    (wStep m x).linked_flight_id = x.linked_flight_id ∨
    (x.id = m.2.id ∧ (wStep m x).linked_flight_id = some m.1.id) := by
  unfold wStep
  dsimp only
  by_cases h1 : x.id = m.1.id
  · by_cases h2 : x.id = m.2.id
    · simp [h1, h2, h1.symm.trans h2]
    · have h3 : ¬m.1.id = m.2.id := fun he => h2 (h1.trans he)
      simp [h1, h2, h3]
  · by_cases h2 : x.id = m.2.id
    · have h3 : ¬m.2.id = m.1.id := fun he => h1 (h2.trans he)
      simp [h1, h2, h3]
    · simp [h1, h2]

theorem wAll_linked : ∀ (ms : List (TravelLog × TravelLog)) (x : TravelLog),
    (wAll ms x).linked_flight_id = x.linked_flight_id ∨
    ∃ m ∈ ms, x.id = m.2.id ∧ (wAll ms x).linked_flight_id = some m.1.id
  | [], _ => Or.inl rfl
  | m :: ms, x => by
    rw [wAll_cons]
    rcases wAll_linked ms (wStep m x) with h | ⟨m', hm', hid, hl⟩
    · rcases wStep_linked m x with h2 | ⟨hid2, hl2⟩
      · exact Or.inl (h.trans h2)
      · exact Or.inr ⟨m, by simp, hid2, h.trans hl2⟩
    · exact Or.inr ⟨m', List.mem_cons_of_mem m hm', by rwa [wStep_id] at hid, hl⟩

/-- `isHomeLocation` is untouched by the verification writes. -/
theorem isHome_wAll (ms : List (TravelLog × TravelLog)) (x : TravelLog) :
    isHomeLocation (wAll ms x) = isHomeLocation x := by
  unfold isHomeLocation
  rw [wAll_city, wAll_country]

/-- The hotel candidate test reads only the flight's city, start date and
id, all untouched by the verification writes. -/
theorem hotelCand_wAll_flight (ms : List (TravelLog × TravelLog)) (f y : TravelLog) :
    hotelCand (wAll ms f) y = hotelCand f y := by
  unfold hotelCand
  rw [wAll_city, wAll_start, wAll_id]

/-- Splitting the hotel candidate test into its city-date and link parts. -/
theorem hotelCand_eq (f y : TravelLog) :
    hotelCand f y = (cityDateOk f y && linkOkB f y) := by
  unfold hotelCand cityDateOk linkOkB
  rfl

/-- On the hotel side the candidate test reads only city, start date and
the linked-flight field. -/
theorem hotelCand_congr (f : TravelLog) {y z : TravelLog}
    (h1 : y.destination_city = z.destination_city)
    (h2 : y.start_date = z.start_date)
    (h3 : y.linked_flight_id = z.linked_flight_id) :
    hotelCand f y = hotelCand f z := by
  unfold hotelCand
  rw [h1, h2, h3]

/-- Membership in the decided match list of a pass. -/
theorem vMatches_mem {logs : List TravelLog} {m : TravelLog × TravelLog}
    (hm : m ∈ vMatches logs) :
    m.1 ∈ logs.filter (fun l => l.travel_type == "flight") ∧
    (m.1.hotel_verification_status == "verified" || isHomeLocation m.1) = false ∧
    (logs.filter (fun l => l.travel_type == "accommodation")).find?
      (fun hotel => hotelCand m.1 hotel) = some m.2 := by
  unfold vMatches at hm
  obtain ⟨f, hf, hpick⟩ := List.mem_filterMap.1 hm
  by_cases hskip : (f.hotel_verification_status == "verified" || isHomeLocation f) = true
  · rw [if_pos hskip] at hpick
    cases hpick
  · rw [if_neg hskip] at hpick
    obtain ⟨h, hfind, heq⟩ := Option.map_eq_some'.mp hpick
    obtain rfl : (f, h) = m := heq
    exact ⟨hf, by revert hskip; cases hb : (f.hotel_verification_status == "verified" ||
      isHomeLocation f) <;> simp, hfind⟩

/-- A decided flight-hotel pair of a pass, from its components. -/
theorem vMatches_of {logs : List TravelLog} {f h : TravelLog}
    (hf : f ∈ logs.filter (fun l => l.travel_type == "flight"))
    (hskip : (f.hotel_verification_status == "verified" || isHomeLocation f) = false)
    (hfind : (logs.filter (fun l => l.travel_type == "accommodation")).find?
      (fun hotel => hotelCand f hotel) = some h) :
    (f, h) ∈ vMatches logs := by
  unfold vMatches
  refine List.mem_filterMap.2 ⟨f, hf, ?_⟩
  rw [if_neg (by simp [hskip]), hfind]
  rfl

/-- `map g` of a `filterMap` embeds into `map h` of the base list when `g`
after the partial function agrees with `h`. -/
theorem filterMap_map_sublist {α β γ : Type} (f : α → Option β) (g : β → γ) (h : α → γ)
    (H : ∀ a b, f a = some b → g b = h a) :
    ∀ l : List α, ((l.filterMap f).map g).Sublist (l.map h)
  | [] => List.Sublist.refl []
  | a :: l => by
    simp only [List.filterMap_cons, List.map_cons]
    cases hfa : f a with
    | none => exact (filterMap_map_sublist f g h H l).cons (h a)
    | some b =>
      simp only [List.map_cons]
      rw [H a b hfa]
      exact (filterMap_map_sublist f g h H l).cons₂ (h a)

/-- Distinct decided matches of a pass carry distinct flight ids. -/
theorem vMatches_fst_id_nodup (logs : List TravelLog)
    (hnd : (logs.map (fun l => l.id)).Nodup) :
    ((vMatches logs).map (fun m => m.1.id)).Nodup := by
  have hfl : ((logs.filter (fun l => l.travel_type == "flight")).map
      (fun l => l.id)).Nodup :=
    hnd.sublist (List.Sublist.map _ (List.filter_sublist logs))
  refine List.Nodup.sublist ?_ hfl
  unfold vMatches
  apply filterMap_map_sublist
  intro a b hab
  by_cases hskip : (a.hotel_verification_status == "verified" || isHomeLocation a) = true
  · rw [if_pos hskip] at hab
    cases hab
  · rw [if_neg hskip] at hab
    obtain ⟨h, _, heq⟩ := Option.map_eq_some'.mp hab
    rw [← heq]

/-- **C8**: over every working set with pairwise-distinct record ids,
running the hotel-verification pass twice produces the same state as
running it once: every flight verified by the first run is skipped, and a
hotel whose link was taken by another flight is no longer a candidate. -/
theorem verify_idempotent (logs : List TravelLog)
    (hnd : (logs.map (fun l => l.id)).Nodup) :
    verifyPass (verifyPass logs) = verifyPass logs := by
  have hinj : ∀ ⦃x⦄, x ∈ logs → ∀ ⦃y⦄, y ∈ logs → x.id = y.id → x = y :=
    fun x hx y hy h => List.inj_on_of_nodup_map hnd hx hy h
  have hs1 : verifyPass logs = logs.map (fun x => wAll (vMatches logs) x) :=
    verifyPass_eq_map logs
  have hflights : (verifyPass logs).filter (fun l => l.travel_type == "flight") =
      (logs.filter (fun l => l.travel_type == "flight")).map
        (fun x => wAll (vMatches logs) x) := by
    rw [hs1, List.filter_map]
    congr 1
    apply List.filter_congr
    intro x _
    simp [Function.comp, wAll_type]
  have hhotels : (verifyPass logs).filter (fun l => l.travel_type == "accommodation") =
      (logs.filter (fun l => l.travel_type == "accommodation")).map
        (fun x => wAll (vMatches logs) x) := by
    rw [hs1, List.filter_map]
    congr 1
    apply List.filter_congr
    intro x _
    simp [Function.comp, wAll_type]
  have hnil : vMatches (verifyPass logs) = [] := by
    unfold vMatches
    rw [List.filterMap_eq_nil_iff]
    intro f' hf'
    rw [hflights] at hf'
    obtain ⟨f, hfF, rfl⟩ := List.mem_map.1 hf'
    have hfLogs : f ∈ logs := List.mem_of_mem_filter hfF
    by_cases hskip : (f.hotel_verification_status == "verified" || isHomeLocation f) = true
    · have hskip2 : ((wAll (vMatches logs) f).hotel_verification_status == "verified" ||
          isHomeLocation (wAll (vMatches logs) f)) = true := by
        rw [Bool.or_eq_true] at hskip ⊢
        rcases hskip with ha | hb
        · exact Or.inl (by simp [wAll_verified_mono (vMatches logs) f (by simpa using ha)])
        · exact Or.inr (by rwa [isHome_wAll])
      rw [if_pos hskip2]
    · have hskipf : (f.hotel_verification_status == "verified" || isHomeLocation f) = false := by
        revert hskip
        cases f.hotel_verification_status == "verified" || isHomeLocation f <;> simp
      cases hfind : (logs.filter (fun l => l.travel_type == "accommodation")).find?
          (fun hotel => hotelCand f hotel) with
      | some h =>
        have hmemM : (f, h) ∈ vMatches logs := vMatches_of hfF hskipf hfind
        have hver : (wAll (vMatches logs) f).hotel_verification_status = "verified" :=
          wAll_sets_verified _ f ⟨(f, h), hmemM, Or.inl rfl⟩
        rw [if_pos (by simp [hver])]
      | none =>
        by_cases hskip2 : ((wAll (vMatches logs) f).hotel_verification_status == "verified" ||
            isHomeLocation (wAll (vMatches logs) f)) = true
        · rw [if_pos hskip2]
        · rw [if_neg hskip2]
          have hnone : ((verifyPass logs).filter
              (fun l => l.travel_type == "accommodation")).find?
              (fun hotel => hotelCand (wAll (vMatches logs) f) hotel) = none := by
            rw [hhotels, List.find?_eq_none]
            intro h' hh'
            obtain ⟨h, hhH, rfl⟩ := List.mem_map.1 hh'
            have hhLogs : h ∈ logs := List.mem_of_mem_filter hhH
            rw [hotelCand_wAll_flight]
            have hfh : hotelCand f h = false := by
              have hx := List.find?_eq_none.mp hfind h hhH
              revert hx
              cases hotelCand f h <;> simp
            intro hcontra
            rcases wAll_linked (vMatches logs) h with hL | ⟨m, hmM, hid2, hL⟩
            · rw [hotelCand_congr f (wAll_city _ h) (wAll_start _ h) hL, hfh] at hcontra
              cases hcontra
            · obtain ⟨hm1F, _, hm1find⟩ := vMatches_mem hmM
              have hm2H : m.2 ∈ logs.filter (fun l => l.travel_type == "accommodation") :=
                List.mem_of_find?_eq_some hm1find
              have heq : h = m.2 := hinj hhLogs (List.mem_of_mem_filter hm2H) hid2
              by_cases hm1f : m.1.id = f.id
              · obtain rfl : m.1 = f := hinj (List.mem_of_mem_filter hm1F) hfLogs hm1f
                rw [hfind] at hm1find
                cases hm1find
              · rw [hotelCand_eq] at hcontra
                have hcd : cityDateOk f (wAll (vMatches logs) h) = cityDateOk f h := by
                  unfold cityDateOk
                  rw [wAll_city, wAll_start]
                have hlink : linkOkB f (wAll (vMatches logs) h) =
                    (m.1.id == "" || m.1.id == f.id) := by
                  unfold linkOkB
                  rw [hL]
                rw [hcd, hlink, Bool.and_eq_true] at hcontra
                have hcdT : cityDateOk f h = true := hcontra.1
                have hsT : (m.1.id == "" || m.1.id == f.id) = true := hcontra.2
                have hempty : m.1.id = "" := by
                  rw [Bool.or_eq_true] at hsT
                  rcases hsT with he | hf2
                  · simpa using he
                  · exact absurd (by simpa using hf2) hm1f
                have hlinkh : linkOkB f h = false := by
                  rw [hotelCand_eq, hcdT] at hfh
                  simpa using hfh
                have hcand1 : hotelCand m.1 h = true := by
                  rw [heq]
                  exact List.find?_some hm1find
                rw [hotelCand_eq, Bool.and_eq_true] at hcand1
                have hlink1 : linkOkB m.1 h = true := hcand1.2
                unfold linkOkB at hlinkh hlink1
                cases hls : h.linked_flight_id with
                | none =>
                  rw [hls] at hlinkh
                  cases hlinkh
                | some s0 =>
                  rw [hls] at hlinkh hlink1
                  rw [Bool.or_eq_true] at hlink1
                  have hs0 : s0 = "" := by
                    rcases hlink1 with h0 | h0
                    · simpa using h0
                    · exact (by simpa using h0 : s0 = m.1.id).trans hempty
                  rw [hs0] at hlinkh
                  simp at hlinkh
          rw [hnone]
          rfl
  rw [verifyPass_eq_writes (verifyPass logs), hnil]
  rfl

/-- Witness for C8 on the concrete two-flights-one-hotel working set. -/
theorem verify_idempotent_witness :
    verifyPass (verifyPass [exFlightOne, exFlightTwo, exHotel]) =
      verifyPass [exFlightOne, exFlightTwo, exHotel] :=
  verify_idempotent [exFlightOne, exFlightTwo, exHotel] (by decide)

/-! ## C1: role integrity of matched pairs -/

/-- What a successful expense-map lookup guarantees. -/
theorem mapGet_spec {expenses : List Expense} {k : String} {e : Expense}
    (h : mapGet expenses k = some e) : e ∈ expenses ∧ e.id = k ∧ k ≠ "" := by
  unfold mapGet at h
  by_cases hk : k = ""
  · rw [if_pos (by simpa using hk)] at h
    cases h
  · rw [if_neg (by simpa using hk)] at h
    refine ⟨List.mem_reverse.1 (List.mem_of_find?_eq_some h), ?_, hk⟩
    simpa using List.find?_some h

/-- What a validated advisory proposal guarantees about its pair. -/
theorem validateProposal_spec {expenses : List Expense} {rates : List (String × ℚ)}
    {m : Proposal} {p : MatchedPair} (h : validateProposal expenses rates m = some p) :
    p.bank ∈ expenses ∧ p.receipt ∈ expenses ∧ p.bank.id = m.bankId ∧ m.bankId ≠ "" ∧
    isAnchor p.receipt = false ∧ p.bank.id ≠ p.receipt.id := by
  unfold validateProposal at h
  cases hb : proposalBank expenses m with
  | none => rw [hb] at h; cases h
  | some b =>
    cases hr : proposalReceipt expenses m with
    | none => rw [hb, hr] at h; cases h
    | some r =>
      rw [hb, hr] at h
      dsimp only at h
      by_cases hguard : (b.id == r.id || isAnchor r) = true
      · rw [if_pos hguard] at h
        cases h
      · rw [if_neg hguard] at h
        have hbm : mapGet expenses m.bankId = some b := by
          unfold proposalBank at hb
          by_cases hk : m.bankId ≠ ""
          · rwa [if_pos hk] at hb
          · rw [if_neg hk] at hb
            cases hb
        obtain ⟨hbMem, hbId, hbNe⟩ := mapGet_spec hbm
        have hrm : ∃ k, mapGet expenses k = some r := by
          unfold proposalReceipt at hr
          by_cases hk : (m.receiptId ≠ "" || m.emailId ≠ "")
          · rw [if_pos hk] at hr
            exact ⟨_, hr⟩
          · rw [if_neg hk] at hr
            cases hr
        obtain ⟨k, hrk⟩ := hrm
        obtain ⟨hrMem, _, _⟩ := mapGet_spec hrk
        rw [Bool.or_eq_true] at hguard
        push_neg at hguard
        obtain ⟨hne, hanc⟩ := hguard
        have hp : MatchedPair.mk b r m.proofLabel m.summary = p := by
          split at h <;> split at h
          all_goals cases h
          all_goals rfl
        obtain rfl := hp
        refine ⟨hbMem, hrMem, hbId, hbNe, ?_, ?_⟩
        · revert hanc
          cases isAnchor r <;> simp
        · intro he
          exact hne (by simpa using he)

/-- What membership in the advisory pass output guarantees. -/
theorem advisoryPairs_spec {expenses : List Expense} {recon : List Proposal}
    {rates : List (String × ℚ)} {period : Period} {auditBank : String} {p : MatchedPair}
    (hp : p ∈ advisoryPairs expenses recon rates period auditBank) :
    p.bank ∈ expenses ∧ p.receipt ∈ expenses ∧ p.bank.id ≠ "" ∧
    isAnchor p.receipt = false ∧ p.bank.id ≠ p.receipt.id ∧
    isTargetPeriod period p.bank.date = true ∧ bankScope auditBank p.bank = true := by
  unfold advisoryPairs at hp
  obtain ⟨hp1, hp2⟩ := List.mem_filter.1 hp
  obtain ⟨m, _, hval⟩ := List.mem_filterMap.1 hp1
  obtain ⟨h1, h2, h3, h4, h5, h6⟩ := validateProposal_spec hval
  rw [Bool.and_eq_true] at hp2
  exact ⟨h1, h2, h3 ▸ h4, h5, h6, hp2.1, hp2.2⟩

/-- What a successful `findRemove` guarantees. -/
theorem findRemove_spec {α : Type} {p : α → Bool} :
    ∀ {l : List α} {x : α} {rest : List α}, findRemove p l = (some x, rest) →
      x ∈ l ∧ p x = true
  | [], x, rest, h => by
    unfold findRemove at h
    cases congrArg Prod.fst h
  | a :: l, x, rest, h => by
    unfold findRemove at h
    by_cases hpa : p a = true
    · rw [if_pos hpa] at h
      have ha : some a = some x := congrArg Prod.fst h
      obtain rfl : a = x := by injection ha
      exact ⟨List.mem_cons_self a l, hpa⟩
    · rw [if_neg hpa] at h
      have h1 : (findRemove p l).1 = some x := congrArg Prod.fst h
      have h2 : findRemove p l = (some x, (findRemove p l).2) := by rw [← h1]
      obtain ⟨hx, hpx⟩ := findRemove_spec h2
      exact ⟨List.mem_cons_of_mem a hx, hpx⟩

/-- Any property of matched pairs preserved by the fallback step holds for
the whole fallback fold. -/
theorem fallback_fold_pred (rates : List (String × ℚ)) (Q : MatchedPair → Prop) :
    ∀ (todo : List Expense) (st : FallbackState),
      (∀ p ∈ st.pairs, Q p) →
      (∀ b ∈ todo, ∀ rec : Expense, fallbackCand rates b rec = true →
        Q ⟨b, rec, "AUTO-VERIFIED (Forensic Match)",
          "Verified via ±3 day clearance window heuristic match."⟩) →
      ∀ p ∈ (todo.foldl (fun st b => fallbackStep rates st b) st).pairs, Q p
  | [], st, hst, _, p, hp => hst p hp
  | b :: todo, st, hst, hQ, p, hp => by
    simp only [List.foldl_cons] at hp
    refine fallback_fold_pred rates Q todo _ ?_ (fun b' hb' => hQ b' (List.mem_cons_of_mem b hb'))
      p hp
    unfold fallbackStep
    cases hfr : findRemove (fun rec => fallbackCand rates b rec) st.available with
    | mk found rest =>
      cases found with
      | none => exact hst
      | some rec =>
        dsimp only
        intro q hq
        rcases List.mem_append.mp hq with hq1 | hq2
        · exact hst q hq1
        · obtain rfl : MatchedPair.mk b rec "AUTO-VERIFIED (Forensic Match)"
              "Verified via ±3 day clearance window heuristic match." = q :=
            (List.mem_singleton.mp hq2).symm
          exact hQ b (List.mem_cons_self b todo) rec (findRemove_spec hfr).2

/-- The fallback candidate test requires a non-anchor receipt. -/
theorem fallbackCand_receipt {rates : List (String × ℚ)} {b rec : Expense}
    (h : fallbackCand rates b rec = true) : isAnchor rec = false := by
  unfold fallbackCand at h
  simp only [Bool.and_eq_true, Bool.not_eq_true'] at h
  exact h.2

/-- Scoped anchors have anchor role, lie in the period and pass the
account filter. -/
theorem scopedAnchors_spec {expenses : List Expense} {period : Period} {auditBank : String}
    {e : Expense} (h : e ∈ scopedAnchors expenses period auditBank) :
    e ∈ expenses ∧ isAnchor e = true ∧ isTargetPeriod period e.date = true ∧
    bankScope auditBank e = true := by
  unfold scopedAnchors at h
  obtain ⟨h1, h2⟩ := List.mem_filter.1 h
  simp only [Bool.and_eq_true] at h2
  exact ⟨h1, h2.1.1, h2.1.2, h2.2⟩

/-- **C1** (amended): in every reconciliation run, every matched pair has a
non-anchor receipt member and is never a self-match, and every pair not
produced by the advisory-validation pass has an anchor bank member.  (The
advisory pass checks only the receipt side's role, so the bank member of
an advisory pair need not be an anchor.) -/
theorem matched_pairs_role_integrity (expenses : List Expense) (recon : List Proposal)
    (rates : List (String × ℚ)) (period : Period) (auditBank : String) :
    ∀ p ∈ (filteredData expenses recon rates period auditBank).matched,
      isAnchor p.receipt = false ∧ p.bank ≠ p.receipt ∧
      (p ∈ advisoryPairs expenses recon rates period auditBank ∨ isAnchor p.bank = true) := by
  have hm : (filteredData expenses recon rates period auditBank).matched =
      (fallbackRun expenses recon rates period auditBank).pairs := rfl
  rw [hm]
  unfold fallbackRun
  apply fallback_fold_pred
  · intro p hp
    obtain ⟨_, _, _, h4, h5, _, _⟩ := advisoryPairs_spec hp
    exact ⟨h4, fun he => h5 (congrArg Expense.id he), Or.inl hp⟩
  · intro b hb rec hcand
    have hbA : isAnchor b = true := by
      unfold unmatchedAnchors0 at hb
      exact (scopedAnchors_spec (List.mem_of_mem_filter hb)).2.1
    have hrA : isAnchor rec = false := fallbackCand_receipt hcand
    refine ⟨hrA, ?_, Or.inr hbA⟩
    intro he
    have he2 : b = rec := he
    rw [he2, hrA] at hbA
    cases hbA

/-- Amount parity holds on the two equal-amount counterexample receipts. -/
theorem exProof_parity : amountParity exProofA exProofB [] = true := by
  simp +decide [amountParity, exProofA, exProofB]

/-- The proof-proof advisory proposal survives validation. -/
theorem exProposal_validates : validateProposal [exProofA, exProofB] [] exProposal =
    some ⟨exProofA, exProofB, "Receipt", "match"⟩ := by
  simp +decide [validateProposal, proposalBank, proposalReceipt, mapGet, exProposal,
    exProof_parity]

/-- The counterexample run matches the two proof records to each other. -/
theorem exRun_matched : exRun.matched = [⟨exProofA, exProofB, "Receipt", "match"⟩] := by
  simp +decide [exRun, filteredData, fallbackRun, unmatchedAnchors0, advisoryIds,
    availableStart, advisoryPairs, exProposal_validates, scopedAnchors]

/-- **C1** (counterexample): the reconciliation run on two receipt-sourced
expenses and an advisory proposal pairing them outputs a matched pair both
of whose members have proof role, refuting the claim that every produced
pair consists of exactly one anchor and one proof. -/
theorem matched_pair_without_anchor :
    ∃ p ∈ exRun.matched, isAnchor p.bank = false ∧ isAnchor p.receipt = false := by
  refine ⟨⟨exProofA, exProofB, "Receipt", "match"⟩, ?_, by decide, by decide⟩
  rw [exRun_matched]
  exact List.mem_singleton.2 rfl

/-- Witness for the amended C1 at the concrete counterexample run. -/
theorem matched_pairs_role_integrity_witness :
    isAnchor (MatchedPair.mk exProofA exProofB "Receipt" "match").receipt = false ∧
    (MatchedPair.mk exProofA exProofB "Receipt" "match").bank ≠
      (MatchedPair.mk exProofA exProofB "Receipt" "match").receipt ∧
    ((MatchedPair.mk exProofA exProofB "Receipt" "match") ∈
      advisoryPairs [exProofA, exProofB] [exProposal] [] exPeriod "All Accounts" ∨
     isAnchor (MatchedPair.mk exProofA exProofB "Receipt" "match").bank = true) :=
  matched_pairs_role_integrity [exProofA, exProofB] [exProposal] [] exPeriod "All Accounts"
    ⟨exProofA, exProofB, "Receipt", "match"⟩
    (by show MatchedPair.mk exProofA exProofB "Receipt" "match" ∈ exRun.matched
        simp [exRun_matched])

/-! ## C4: the four output sets against the scoped anchor pool -/

/-- The advisory pass records pairwise-distinct bank ids when the proposal
list has pairwise-distinct bank ids. -/
theorem advisoryPairs_bankIds_nodup {expenses : List Expense} {recon : List Proposal}
    {rates : List (String × ℚ)} {period : Period} {auditBank : String}
    (h2 : (recon.map (fun m => m.bankId)).Nodup) :
    ((advisoryPairs expenses recon rates period auditBank).map
      (fun p => p.bank.id)).Nodup := by
  refine List.Nodup.sublist ?_ h2
  unfold advisoryPairs
  have s1 := List.Sublist.map (fun p : MatchedPair => p.bank.id)
    (List.filter_sublist (l := recon.filterMap (fun m => validateProposal expenses rates m))
      (p := fun p => isTargetPeriod period p.bank.date && bankScope auditBank p.bank))
  have s2 := filterMap_map_sublist (fun m => validateProposal expenses rates m)
    (fun p : MatchedPair => p.bank.id) (fun m => m.bankId)
    (fun m p hmp => (validateProposal_spec hmp).2.2.1) recon
  exact s1.trans s2

/-- Counting by key in a list with pairwise-distinct keys. -/
theorem countP_key {α : Type} (f : α → String) :
    ∀ l : List α, (l.map f).Nodup → ∀ k : String,
      l.countP (fun x => f x == k) = if k ∈ l.map f then 1 else 0
  | [], _, k => by simp
  | x :: l, hnd, k => by
    simp only [List.map_cons, List.nodup_cons] at hnd
    rw [List.countP_cons, countP_key f l hnd.2 k]
    by_cases hk : f x = k
    · subst hk
      rw [if_neg hnd.1]
      simp
    · have hk2 : (f x == k) = false := by simpa using hk
      have hne : ¬k = f x := fun he => hk he.symm
      rw [hk2]
      simp [hne]

/-- The count invariant carried through the fallback loop: a scoped anchor
is in the matched-id set exactly when exactly one pair carries it. -/
theorem fallback_fold_count (rates : List (String × ℚ)) (anchors : List Expense) :
    ∀ (todo : List Expense) (st : FallbackState),
      (todo.map (fun e => e.id)).Nodup →
      (∀ b ∈ todo, b.id ∉ st.matchedIds) →
      (∀ a ∈ anchors, ∀ b ∈ todo, a.id = b.id → a = b) →
      (∀ a ∈ anchors,
        (a.id ∈ st.matchedIds → st.pairs.countP (fun p => p.bank == a) = 1) ∧
        (a.id ∉ st.matchedIds → st.pairs.countP (fun p => p.bank == a) = 0)) →
      ∀ a ∈ anchors,
        (a.id ∈ (todo.foldl (fun st b => fallbackStep rates st b) st).matchedIds →
          (todo.foldl (fun st b => fallbackStep rates st b) st).pairs.countP
            (fun p => p.bank == a) = 1) ∧
        (a.id ∉ (todo.foldl (fun st b => fallbackStep rates st b) st).matchedIds →
          (todo.foldl (fun st b => fallbackStep rates st b) st).pairs.countP
            (fun p => p.bank == a) = 0)
  | [], st, _, _, _, hinv, a, ha => hinv a ha
  | b :: todo, st, hnd, hfresh, hka, hinv, a, ha => by
    simp only [List.foldl_cons]
    simp only [List.map_cons, List.nodup_cons] at hnd
    have hbid : b.id ∉ st.matchedIds := hfresh b (List.mem_cons_self b todo)
    cases hfr : findRemove (fun rec => fallbackCand rates b rec) st.available with
    | mk found rest =>
      cases found with
      | none =>
        have hstep : fallbackStep rates st b = st := by
          unfold fallbackStep
          rw [hfr]
        rw [hstep]
        exact fallback_fold_count rates anchors todo st hnd.2
          (fun b' hb' => hfresh b' (List.mem_cons_of_mem b hb'))
          (fun a' ha' b' hb' => hka a' ha' b' (List.mem_cons_of_mem b hb')) hinv a ha
      | some rec =>
        have hstep : fallbackStep rates st b =
            ⟨st.pairs ++ [⟨b, rec, "AUTO-VERIFIED (Forensic Match)",
              "Verified via ±3 day clearance window heuristic match."⟩],
             st.matchedIds ++ [b.id], rest⟩ := by
          unfold fallbackStep
          rw [hfr]
        rw [hstep]
        refine fallback_fold_count rates anchors todo _ hnd.2 ?_
          (fun a' ha' b' hb' => hka a' ha' b' (List.mem_cons_of_mem b hb')) ?_ a ha
        · intro b' hb'
          simp only [List.mem_append, List.mem_singleton]
          rintro (hin | hid)
          · exact hfresh b' (List.mem_cons_of_mem b hb') hin
          · exact hnd.1 (hid ▸ List.mem_map_of_mem (fun e => e.id) hb')
        · intro a' ha'
          by_cases hab : a'.id = b.id
          · obtain rfl : a' = b := hka a' ha' b (List.mem_cons_self b todo) hab
            have hz : st.pairs.countP (fun p => p.bank == a') = 0 := (hinv a' ha').2 hbid
            constructor
            · intro _
              rw [List.countP_append, hz]
              simp
            · intro hnot
              exact absurd (by simp : a'.id ∈ st.matchedIds ++ [a'.id]) hnot
          · have hbeq : (b == a') = false := by
              simp only [beq_eq_false_iff_ne, ne_eq]
              intro he
              exact hab (by rw [he])
            have hcnt : (st.pairs ++ [MatchedPair.mk b rec "AUTO-VERIFIED (Forensic Match)"
                "Verified via ±3 day clearance window heuristic match."]).countP
                (fun p => p.bank == a') = st.pairs.countP (fun p => p.bank == a') := by
              rw [List.countP_append]
              simp [List.countP_cons, hbeq]
            have hmm : a'.id ∈ st.matchedIds ++ [b.id] ↔ a'.id ∈ st.matchedIds := by
              simp [hab]
            constructor
            · intro hin
              rw [hcnt]
              exact (hinv a' ha').1 (hmm.1 hin)
            · intro hnot
              rw [hcnt]
              exact (hinv a' ha').2 (fun hin => hnot (hmm.2 hin))

/-- `contains` on string lists is membership. -/
theorem string_contains_iff {l : List String} {s : String} :
    l.contains s = true ↔ s ∈ l := by
  rw [List.contains_iff_exists_mem_beq]
  constructor
  · rintro ⟨x, hx, he⟩
    obtain rfl : s = x := by simpa using he
    exact hx
  · intro h
    exact ⟨s, h, by simp⟩

theorem string_contains_false_iff {l : List String} {s : String} :
    l.contains s = false ↔ s ∉ l := by
  rw [Bool.eq_false_iff, Ne, string_contains_iff]

/-- **C4** (amended): under pairwise-distinct expense ids and
pairwise-distinct advisory bank ids, every anchor in the period- and
account-scope appears in exactly one of the four output sets (counting its
matched pairs and its occurrences in the three missing lists), the three
missing lists contain only in-scope anchors, and every matched pair's bank
member passes the period and account filters — an anchor bank member is
always in scope, but a bank member need not be an anchor. -/
theorem anchor_pool_partition (expenses : List Expense) (recon : List Proposal)
    (rates : List (String × ℚ)) (period : Period) (auditBank : String)
    (h1 : (expenses.map (fun e => e.id)).Nodup)
    (h2 : (recon.map (fun m => m.bankId)).Nodup) :
    (∀ a ∈ scopedAnchors expenses period auditBank,
      (filteredData expenses recon rates period auditBank).matched.countP
          (fun p => p.bank == a) +
        ((filteredData expenses recon rates period auditBank).mandatoryMissing ++
          (filteredData expenses recon rates period auditBank).optionalMissing ++
          (filteredData expenses recon rates period auditBank).standardMissing).count a
        = 1) ∧
    (∀ e ∈ (filteredData expenses recon rates period auditBank).mandatoryMissing ++
        (filteredData expenses recon rates period auditBank).optionalMissing ++
        (filteredData expenses recon rates period auditBank).standardMissing,
      e ∈ scopedAnchors expenses period auditBank) ∧
    (∀ p ∈ (filteredData expenses recon rates period auditBank).matched,
      isTargetPeriod period p.bank.date = true ∧ bankScope auditBank p.bank = true ∧
      (isAnchor p.bank = true → p.bank ∈ scopedAnchors expenses period auditBank)) := by
  have hinj : ∀ ⦃x⦄, x ∈ expenses → ∀ ⦃y⦄, y ∈ expenses → x.id = y.id → x = y :=
    fun x hx y hy h => List.inj_on_of_nodup_map h1 hx hy h
  have hMmatched : (filteredData expenses recon rates period auditBank).matched =
      (fallbackRun expenses recon rates period auditBank).pairs := rfl
  have hMman : (filteredData expenses recon rates period auditBank).mandatoryMissing =
      (finalUnmatchedAnchors expenses recon rates period auditBank).filter
        (fun e => isMandatoryE e) := rfl
  have hMopt : (filteredData expenses recon rates period auditBank).optionalMissing =
      (finalUnmatchedAnchors expenses recon rates period auditBank).filter
        (fun e => !isMandatoryE e && isOptionalE rates e) := rfl
  have hMstd : (filteredData expenses recon rates period auditBank).standardMissing =
      (finalUnmatchedAnchors expenses recon rates period auditBank).filter
        (fun e => !isMandatoryE e && !isOptionalE rates e) := rfl
  have hAsub : ∀ a ∈ scopedAnchors expenses period auditBank, a ∈ expenses :=
    fun a ha => (scopedAnchors_spec ha).1
  have hAnodup : (scopedAnchors expenses period auditBank).Nodup :=
    (List.Nodup.of_map _ h1).filter _
  have hAidsN : ((scopedAnchors expenses period auditBank).map (fun e => e.id)).Nodup :=
    h1.sublist (List.Sublist.map _ (List.filter_sublist _))
  have hAdvN := @advisoryPairs_bankIds_nodup expenses recon rates period auditBank h2
  have hinv0 : ∀ a ∈ scopedAnchors expenses period auditBank,
      (a.id ∈ advisoryIds expenses recon rates period auditBank →
        (advisoryPairs expenses recon rates period auditBank).countP
          (fun p => p.bank == a) = 1) ∧
      (a.id ∉ advisoryIds expenses recon rates period auditBank →
        (advisoryPairs expenses recon rates period auditBank).countP
          (fun p => p.bank == a) = 0) := by
    intro a ha
    have haE : a ∈ expenses := hAsub a ha
    have hcong : (advisoryPairs expenses recon rates period auditBank).countP
        (fun p => p.bank == a) =
        (advisoryPairs expenses recon rates period auditBank).countP
        (fun p => p.bank.id == a.id) := by
      apply List.countP_congr
      intro p hp
      constructor
      · intro hb
        have hpb : p.bank = a := by simpa using hb
        simp [hpb]
      · intro hb
        have hid : p.bank.id = a.id := by simpa using hb
        have hpb : p.bank = a := hinj (advisoryPairs_spec hp).1 haE hid
        simp [hpb]
    rw [hcong, countP_key (fun p : MatchedPair => p.bank.id) _ hAdvN a.id]
    have hidsmem : a.id ∈ advisoryIds expenses recon rates period auditBank ↔
        a.id ∈ (advisoryPairs expenses recon rates period auditBank).map
          (fun p => p.bank.id) := by
      unfold advisoryIds
      rw [List.mem_filter]
      constructor
      · exact fun h => h.1
      · intro hm
        refine ⟨hm, ?_⟩
        obtain ⟨p, hp, hpe⟩ := List.mem_map.1 hm
        have hne := (advisoryPairs_spec hp).2.2.1
        rw [hpe] at hne
        simpa using hne
    constructor
    · intro hin
      rw [if_pos (hidsmem.1 hin)]
    · intro hnot
      rw [if_neg (fun hm => hnot (hidsmem.2 hm))]
  have htodoN : ((unmatchedAnchors0 expenses recon rates period auditBank).map
      (fun e => e.id)).Nodup :=
    hAidsN.sublist (List.Sublist.map _ (List.filter_sublist _))
  have hfresh : ∀ b ∈ unmatchedAnchors0 expenses recon rates period auditBank,
      b.id ∉ advisoryIds expenses recon rates period auditBank := by
    intro b hb
    have hcf := (List.mem_filter.1 hb).2
    simp only [Bool.not_eq_true'] at hcf
    exact string_contains_false_iff.1 hcf
  have hka : ∀ a ∈ scopedAnchors expenses period auditBank,
      ∀ b ∈ unmatchedAnchors0 expenses recon rates period auditBank,
      a.id = b.id → a = b := by
    intro a ha b hb he
    exact hinj (hAsub a ha) (hAsub b (List.mem_of_mem_filter hb)) he
  have hinvF := fallback_fold_count rates (scopedAnchors expenses period auditBank)
    (unmatchedAnchors0 expenses recon rates period auditBank)
    ⟨advisoryPairs expenses recon rates period auditBank,
     advisoryIds expenses recon rates period auditBank,
     availableStart expenses recon rates period auditBank⟩ htodoN hfresh hka hinv0
  have hrunEq : fallbackRun expenses recon rates period auditBank =
      (unmatchedAnchors0 expenses recon rates period auditBank).foldl
        (fun st b => fallbackStep rates st b)
        ⟨advisoryPairs expenses recon rates period auditBank,
         advisoryIds expenses recon rates period auditBank,
         availableStart expenses recon rates period auditBank⟩ := rfl
  refine ⟨?_, ?_, ?_⟩
  · intro a ha
    obtain ⟨hin1, hin0⟩ := hinvF a ha
    rw [← hrunEq] at hin1 hin0
    rw [hMmatched, hMman, hMopt, hMstd]
    by_cases hm : a.id ∈ (fallbackRun expenses recon rates period auditBank).matchedIds
    · have hnotF : a ∉ finalUnmatchedAnchors expenses recon rates period auditBank := by
        intro hmem
        have hcf := (List.mem_filter.1 hmem).2
        simp only [Bool.not_eq_true'] at hcf
        exact string_contains_false_iff.1 hcf hm
      have hcount0 :
          ((finalUnmatchedAnchors expenses recon rates period auditBank).filter
              (fun e => isMandatoryE e) ++
            (finalUnmatchedAnchors expenses recon rates period auditBank).filter
              (fun e => !isMandatoryE e && isOptionalE rates e) ++
            (finalUnmatchedAnchors expenses recon rates period auditBank).filter
              (fun e => !isMandatoryE e && !isOptionalE rates e)).count a = 0 := by
        rw [List.count_eq_zero]
        intro hmem
        rcases List.mem_append.1 hmem with hmem' | hmem'
        · rcases List.mem_append.1 hmem' with hmem'' | hmem''
          · exact hnotF (List.mem_of_mem_filter hmem'')
          · exact hnotF (List.mem_of_mem_filter hmem'')
        · exact hnotF (List.mem_of_mem_filter hmem')
      rw [hin1 hm, hcount0]
    · have hFmem : a ∈ finalUnmatchedAnchors expenses recon rates period auditBank := by
        refine List.mem_filter.2 ⟨ha, ?_⟩
        simp only [Bool.not_eq_true']
        exact string_contains_false_iff.2 hm
      have hFnodup : (finalUnmatchedAnchors expenses recon rates period auditBank).Nodup :=
        hAnodup.filter _
      have h1cnt : (finalUnmatchedAnchors expenses recon rates period auditBank).count a = 1 :=
        List.count_eq_one_of_mem hFnodup hFmem
      rw [hin0 hm, List.count_append, List.count_append]
      have hz : ∀ q : Expense → Bool, q a = false →
          ((finalUnmatchedAnchors expenses recon rates period auditBank).filter q).count a
            = 0 := by
        intro q hq
        rw [List.count_eq_zero]
        intro hmem
        rw [(List.mem_filter.1 hmem).2] at hq
        cases hq
      by_cases hMd : isMandatoryE a = true
      · rw [List.count_filter hMd, h1cnt, hz _ (by simp [hMd]), hz _ (by simp [hMd])]
      · have hMd' : isMandatoryE a = false := by
          revert hMd
          cases isMandatoryE a <;> simp
        by_cases hOp : isOptionalE rates a = true
        · rw [List.count_filter (p := fun e => !isMandatoryE e && isOptionalE rates e)
            (by simp [hMd', hOp]), h1cnt, hz _ (by simp [hMd']), hz _ (by simp [hOp])]
        · have hOp' : isOptionalE rates a = false := by
            revert hOp
            cases isOptionalE rates a <;> simp
          rw [List.count_filter (p := fun e => !isMandatoryE e && !isOptionalE rates e)
            (by simp [hMd', hOp']), h1cnt, hz _ (by simp [hMd']), hz _ (by simp [hOp'])]
  · intro e he
    rw [hMman, hMopt, hMstd] at he
    rcases List.mem_append.1 he with he' | he'
    · rcases List.mem_append.1 he' with he'' | he''
      · exact List.mem_of_mem_filter (List.mem_of_mem_filter he'')
      · exact List.mem_of_mem_filter (List.mem_of_mem_filter he'')
    · exact List.mem_of_mem_filter (List.mem_of_mem_filter he')
  · intro p hp
    rw [hMmatched, hrunEq] at hp
    refine fallback_fold_pred rates (fun p => isTargetPeriod period p.bank.date = true ∧
        bankScope auditBank p.bank = true ∧
        (isAnchor p.bank = true → p.bank ∈ scopedAnchors expenses period auditBank))
      (unmatchedAnchors0 expenses recon rates period auditBank) _ ?_ ?_ p hp
    · intro q hq
      obtain ⟨hbm, _, _, _, _, hper, hsc⟩ := advisoryPairs_spec hq
      exact ⟨hper, hsc, fun hanc => List.mem_filter.2 ⟨hbm, by simp [hanc, hper, hsc]⟩⟩
    · intro b hb rec hcand
      obtain ⟨hbE, hbA, hbP, hbS⟩ := scopedAnchors_spec (List.mem_of_mem_filter hb)
      exact ⟨hbP, hbS, fun _ => List.mem_of_mem_filter hb⟩

/-- **C4** (counterexample): a reconciliation run can output a matched pair
whose bank member lies outside the scoped anchor pool, so the matched set is
not drawn from the anchor pool only — the advisory validation never checks
that the bank-side record is an anchor. -/
theorem matched_bank_outside_anchor_pool :
    ∃ p ∈ exRun.matched,
      p.bank ∉ scopedAnchors [exProofA, exProofB] exPeriod "All Accounts" := by
  refine ⟨⟨exProofA, exProofB, "Receipt", "match"⟩, ?_, ?_⟩
  · rw [exRun_matched]
    exact List.mem_singleton.2 rfl
  · intro hm
    have hempty : scopedAnchors [exProofA, exProofB] exPeriod "All Accounts" = [] := by
      simp +decide [scopedAnchors]
    rw [hempty] at hm
    cases hm

/-- Witness for the amended C4: its period/scope conclusion instantiated at
the concrete run's single matched pair. -/
theorem anchor_pool_partition_witness :
    isTargetPeriod exPeriod exProofA.date = true ∧
    bankScope "All Accounts" exProofA = true := by
  have h := anchor_pool_partition [exProofA, exProofB] [exProposal] [] exPeriod
    "All Accounts" (by decide) (by decide)
  have hmem : MatchedPair.mk exProofA exProofB "Receipt" "match" ∈
      (filteredData [exProofA, exProofB] [exProposal] [] exPeriod "All Accounts").matched := by
    show _ ∈ exRun.matched
    simp [exRun_matched]
  have hc := h.2.2 _ hmem
  exact ⟨hc.1, hc.2.1⟩

end ExpenseFlow
